import Mathlib

/-!
# Verification of the noah-postgres-to-neo4j migration core

A shallow embedding, in Lean 4, of the schema-driven migration pipeline of
the `noah-postgres-to-neo4j` repository:

* `schema_analyzer/models.py` — source-side table metadata and the
  junction / lookup / spatial / entity classification;
* `mapping_engine/models.py`, `mapping_rules.py`, `config.py`,
  `spatial_handler.py` — the graph-schema IR, the automatic mapping rules,
  the declarative YAML loader and the spatial property generator;
* `data_migrator/generic_migrator.py` — value cleaning, row projection and
  the MERGE-based batched migration `migrate_all`;
* `data_auditor/auditor.py` — the fuzzy value comparison `_values_match`.

Python values are embedded as the inductive `PyVal`; Python floats as
`PyFloat` (exact numerator/denominator pairs plus nan/±inf, so that all
comparisons are kernel-computable; the absolute-tolerance comparison of the
auditor is expressed by cross-multiplication).  Text processing is done on
`List Char` with explicitly recursive helpers, because the corresponding
`String` functions of core Lean do not reduce inside the kernel.

The target graph store is modelled operationally: `GDB` is the graph state,
and the semantics of each generated Cypher statement (`UNWIND rows MERGE
(n:L {keys}) SET n += row`, `MATCH a MATCH b MERGE (a)-[r:T]->(b)` …) is
given by the corresponding state-transition function, keyed on exactly the
data (label, merge keys, relationship type, bidirectionality) that the
migrator splices into the statement.  The source database is an oracle
`SqlDb : String → List PropRow` mapping a generated SQL text to its result
rows, which models a fixed source dataset: the same query yields the same
rows every time it is issued.
-/

namespace Noah

/-! ## Text helpers on `List Char`

Kernel-computable counterparts of the Python string operations used by the
embedded code (`in`, `.lower()`, `.upper()`, `.strip()`, `.replace`,
`.endswith`, `.capitalize()`, `.rstrip('s')`, `.split('_')`). -/

/-- `listIsPrefixOf pat l` : does `l` start with `pat`? -/
def listIsPrefixOf : List Char → List Char → Bool
  | [], _ => true
  | _ :: _, [] => false
  | a :: as, b :: bs => a == b && listIsPrefixOf as bs

/-- Python `pat in s` on character lists: `pat` occurs contiguously in `l`. -/
def listContainsSub (pat : List Char) : List Char → Bool
  | [] => pat.isEmpty
  | c :: rest => listIsPrefixOf pat (c :: rest) || listContainsSub pat rest

/-- Python `pat in s` on strings. -/
def strContains (s pat : String) : Bool :=
  listContainsSub pat.toList s.toList

/-- Fuel-indexed core of Python `str.replace` (leftmost, non-overlapping);
the fuel is always instantiated with the length of the list, which bounds
the recursion depth, keeping the definition structurally recursive and
kernel-computable. -/
def listReplaceAux (pat rep : List Char) : Nat → List Char → List Char
  | 0, l => l
  | _ + 1, [] => []
  | fuel + 1, c :: rest =>
    if pat ≠ [] ∧ listIsPrefixOf pat (c :: rest) then
      rep ++ listReplaceAux pat rep fuel ((c :: rest).drop pat.length)
    else
      c :: listReplaceAux pat rep fuel rest

/-- Python `s.replace(pat, rep)` on character lists. -/
def listReplace (pat rep l : List Char) : List Char :=
  listReplaceAux pat rep l.length l

/-- Python `s.replace(pat, rep)` on strings. -/
def strReplace (s pat rep : String) : String :=
  String.mk (listReplace pat.toList rep.toList s.toList)

/-- Python whitespace test (the characters `str.strip` removes). -/
def isPySpace (c : Char) : Bool :=
  c == ' ' || c == '\t' || c == '\n' || c == '\r' || c == '\x0b' || c == '\x0c'

/-- Python `s.strip()` on character lists. -/
def listStrip (l : List Char) : List Char :=
  ((l.dropWhile isPySpace).reverse.dropWhile isPySpace).reverse

/-- Python `s.strip()` on strings. -/
def strStrip (s : String) : String :=
  String.mk (listStrip s.toList)

/-- Python `s.lower()` on strings (ASCII suffices for the identifiers the
pipeline handles). -/
def strLower (s : String) : String :=
  String.mk (s.toList.map Char.toLower)

/-- Python `s.upper()` on strings. -/
def strUpper (s : String) : String :=
  String.mk (s.toList.map Char.toUpper)

/-- Python `s.endswith(t)` on strings. -/
def strEndsWith (s t : String) : Bool :=
  listIsPrefixOf t.toList.reverse s.toList.reverse

/-- Python `s.rstrip('s')`: remove all trailing `'s'` characters. -/
def strRstripS (s : String) : String :=
  String.mk ((s.toList.reverse.dropWhile (· == 's')).reverse)

/-- Python `s.split('_')` on strings. -/
def strSplitUnderscore (s : String) : List String :=
  (s.toList.splitOn '_').map String.mk

/-- Python `word.capitalize()`: first character upper-cased, the rest
lower-cased. -/
def strCapitalize (s : String) : String :=
  match s.toList with
  | [] => ""
  | c :: rest => String.mk (c.toUpper :: rest.map Char.toLower)

/-- Python set equality of two lists of strings (`set(a) == set(b)`). -/
def listSetEq (a b : List String) : Bool :=
  a.all (b.contains ·) && b.all (a.contains ·)

/-! ## Schema analyzer data model (`schema_analyzer/models.py`)

The typed table metadata the analyzer builds, and the classification
heuristics `Table.is_junction_table`, `Table.is_lookup_table` and
`Table.classify_table_type`.  `row_count` is `Optional[int]` in the source
(left unset when the count query failed); Python truthiness of an `int`
(`if self.row_count and …`) is `≠ 0`, which we spell out where it occurs. -/

inductive TableType
  | ENTITY | JUNCTION | LOOKUP | SPATIAL | UNKNOWN
deriving DecidableEq, Repr

structure Column where
  name : String
  data_type : String
  is_nullable : Bool
  is_primary_key : Bool := false
  is_foreign_key : Bool := false
  default_value : Option String := none
deriving DecidableEq, Repr

structure ForeignKey where
  name : String
  column : String
  referenced_table : String
  referenced_column : String
deriving DecidableEq, Repr

structure PrimaryKey where
  name : String
  columns : List String
deriving DecidableEq, Repr

structure Table where
  name : String
  schema : String
  columns : List Column := []
  primary_key : Option PrimaryKey := none
  foreign_keys : List ForeignKey := []
  row_count : Option Nat := none
  table_type : TableType := TableType.UNKNOWN
deriving DecidableEq, Repr

/-- `Table.is_junction_table`: exactly 2 foreign keys, a 2-column primary
key whose column set equals the set of FK columns, and at most 2 columns
outside the primary key. -/
def Table.is_junction_table (t : Table) : Bool :=
  if t.foreign_keys.length ≠ 2 then false
  else
    match t.primary_key with
    | none => false
    | some pk =>
      if pk.columns.length ≠ 2 then false
      else
        let fk_columns := t.foreign_keys.map (·.column)
        if ¬ listSetEq fk_columns pk.columns then false
        else
          let non_pk_columns := t.columns.filter (fun c => ¬ pk.columns.contains c.name)
          non_pk_columns.length ≤ 2

/-- The six indicator column names of `Table.is_lookup_table`. -/
def lookupIndicators : List String :=
  ["code", "name", "type", "category", "description", "value"]

/-- How many of the six indicators occur among the lower-cased column names
(the size of the Python set intersection: the indicator list has no
duplicates, so counting indicators present is exactly `len(column_names &
lookup_indicators)`). -/
def Table.lookupIndicatorCount (t : Table) : Nat :=
  (lookupIndicators.filter
    (fun ind => t.columns.any (fun c => strLower c.name == ind))).length

/-- `Table.is_lookup_table`.  The source guard is
`if self.row_count and self.row_count > 1000: return False`: with `int`
truthiness this refuses only a *set* row count strictly above 1000 —
an unset count, zero, or any count up to and including 1000 passes. -/
def Table.is_lookup_table (t : Table) : Bool :=
  if (match t.row_count with
      | some n => n ≠ 0 && n > 1000
      | none => false) then false
  else
    let has_lookup_pattern := t.lookupIndicatorCount ≥ 2
    let has_external_fks := t.foreign_keys.any (fun fk => fk.referenced_table ≠ t.name)
    has_lookup_pattern && ¬ has_external_fks

/-- The PostGIS system-catalog table names checked first by
`classify_table_type`. -/
def spatialCatalogNames : List String :=
  ["spatial_ref_sys", "geography_columns", "geometry_columns"]

/-- The spatial-catalog test at the head of `classify_table_type`. -/
def Table.isSpatialCatalog (t : Table) : Bool :=
  (t.schema == "public" || t.schema == "tiger") && spatialCatalogNames.contains t.name

/-- `Table.classify_table_type`: spatial catalog, then junction, then
lookup, else entity. -/
def Table.classify_table_type (t : Table) : TableType :=
  if t.isSpatialCatalog then TableType.SPATIAL
  else if t.is_junction_table then TableType.JUNCTION
  else if t.is_lookup_table then TableType.LOOKUP
  else TableType.ENTITY

/-! ## Graph schema IR (`mapping_engine/models.py`)

`Property`, `NodeType`, `RelationshipType`, `GraphSchema`, `SpatialConfig`:
plain dataclasses in the source, with every variant-specific relationship
field optional and no constructor validation. -/

inductive PropertyType
  | STRING | INTEGER | FLOAT | BOOLEAN | POINT | DATE | DATETIME
  | LIST_STRING | LIST_INTEGER | LIST_FLOAT
deriving DecidableEq, Repr

inductive RelationshipSourceType
  | FOREIGN_KEY | COMPUTED | SPATIAL
deriving DecidableEq, Repr

structure Property where
  name : String
  type : PropertyType
  nullable : Bool := true
  source_column : Option String := none
  source_type : Option String := none
  transformation : Option String := none
  default_value : Option String := none
deriving DecidableEq, Repr

structure NodeType where
  label : String
  primary_property : String
  properties : List Property
  source_table : String
  has_geometry : Bool := false
  geometry_column : Option String := none
  indexes : List String := []
  merge_keys : List String := []
deriving DecidableEq, Repr

structure RelationshipType where
  type : String
  from_label : String
  to_label : String
  properties : List Property := []
  source_type : RelationshipSourceType := RelationshipSourceType.FOREIGN_KEY
  source_table : Option String := none
  from_column : Option String := none
  to_column : Option String := none
  from_id_column : Option String := none
  to_id_column : Option String := none
  computation_query : Option String := none
  bidirectional : Bool := false
deriving DecidableEq, Repr

structure GraphSchema where
  nodes : List NodeType
  relationships : List RelationshipType
deriving DecidableEq, Repr

/-- `GraphSchema.get_node_by_label`: first node type with the given label. -/
def GraphSchema.get_node_by_label (s : GraphSchema) (label : String) : Option NodeType :=
  s.nodes.find? (fun n => n.label == label)

structure SpatialConfig where
  compute_centroids : Bool := true
  compute_area : Bool := true
  use_neo4j_point : Bool := true
  preserve_wkt : Bool := true
  preserve_geojson : Bool := true
  compute_metrics : Bool := true
  compute_bbox : Bool := true
  neighbors_threshold_km : Option Nat := none
deriving DecidableEq, Repr

/-! ## Mapping rules (`mapping_engine/mapping_rules.py`)

The automatic path: type mapping, label derivation, primary-property
detection and `table_to_node_type`.  The source's `detect_primary_property`
subscripts `table.primary_key[0]`; the analyzer's `Table.primary_key` is
the `PrimaryKey` dataclass, which defines no `__getitem__`, so for a table
with a primary key this raises `TypeError` — that is modelled as the
`Except.error` branch, so `table_to_node_type` is a fallible function and
only tables without a primary key yield a `NodeType` along this path. -/

/-- `MappingRules.TYPE_MAPPING`, in its source (insertion) order; the
lookup scans the pairs in order and takes the first pattern that occurs as
a substring of the lower-cased source type. -/
def TYPE_MAPPING : List (String × PropertyType) :=
  [("integer", PropertyType.INTEGER),
   ("bigint", PropertyType.INTEGER),
   ("smallint", PropertyType.INTEGER),
   ("numeric", PropertyType.FLOAT),
   ("decimal", PropertyType.FLOAT),
   ("real", PropertyType.FLOAT),
   ("double precision", PropertyType.FLOAT),
   ("money", PropertyType.FLOAT),
   ("varchar", PropertyType.STRING),
   ("char", PropertyType.STRING),
   ("text", PropertyType.STRING),
   ("boolean", PropertyType.BOOLEAN),
   ("date", PropertyType.DATE),
   ("timestamp", PropertyType.DATETIME),
   ("timestamptz", PropertyType.DATETIME),
   ("geometry", PropertyType.STRING),
   ("geography", PropertyType.STRING)]

/-- `MappingRules.postgres_type_to_neo4j_type`: array types first (by base
type), then the first matching `TYPE_MAPPING` pattern, else `STRING`. -/
def postgres_type_to_neo4j_type (pg_type : String) : PropertyType :=
  let pg_type_lower := strLower pg_type
  if strContains pg_type_lower "[]" then
    let base_type := strStrip (strReplace pg_type_lower "[]" "")
    if ["integer", "bigint", "smallint"].contains base_type then
      PropertyType.LIST_INTEGER
    else if ["numeric", "decimal", "real", "double precision"].contains base_type then
      PropertyType.LIST_FLOAT
    else
      PropertyType.LIST_STRING
  else
    match TYPE_MAPPING.find? (fun p => strContains pg_type_lower p.1) with
    | some p => p.2
    | none => PropertyType.STRING

/-- `MappingRules.table_to_node_label`: strip trailing `'s'`, split on
`'_'`, capitalize each part. -/
def table_to_node_label (table_name : String) : String :=
  let name := strRstripS table_name
  String.join ((strSplitUnderscore name).map strCapitalize)

/-- `MappingRules.column_to_property_name`: lower-cased column name. -/
def column_to_property_name (column_name : String) : String :=
  strLower column_name

/-- `MappingRules.column_to_property`. -/
def column_to_property (c : Column) : Property :=
  { name := column_to_property_name c.name
    type := postgres_type_to_neo4j_type c.data_type
    nullable := c.is_nullable
    source_column := some c.name
    source_type := some c.data_type
    default_value := c.default_value }

/-- `MappingRules.detect_primary_property`.  With a primary key present the
source evaluates `table.primary_key[0]` on the unsubscriptable `PrimaryKey`
dataclass — a `TypeError`; otherwise it falls back to the first `*_id` /
`id` column, then the first column, then the literal `"id"`. -/
def detect_primary_property (t : Table) : Except String String :=
  match t.primary_key with
  | some _ => Except.error "TypeError: PrimaryKey object is not subscriptable"
  | none =>
    match t.columns.find? (fun c => strEndsWith c.name "_id" || c.name == "id") with
    | some c => Except.ok (column_to_property_name c.name)
    | none =>
      match t.columns with
      | c :: _ => Except.ok (column_to_property_name c.name)
      | [] => Except.ok "id"

/-- `MappingRules.detect_geometry_column`. -/
def detect_geometry_column (t : Table) : Option String :=
  (t.columns.find? (fun c =>
    strLower c.data_type == "geometry" || strLower c.data_type == "geography")).map (·.name)

/-- The index-candidate keywords of `table_to_node_type`. -/
def indexKeywords : List String :=
  ["name", "type", "status", "code", "date", "borough", "city"]

/-- `MappingRules.table_to_node_type`: label, primary property (fallible,
see `detect_primary_property`), all non-geometry columns as properties, up
to five keyword-matched index candidates, and `merge_keys = [primary
property]`. -/
def table_to_node_type (t : Table) : Except String NodeType := do
  let label := table_to_node_label t.name
  let primary_property ← detect_primary_property t
  let geometry_column := detect_geometry_column t
  let properties := (t.columns.filter (fun c =>
    ¬ (strLower c.data_type == "geometry" || strLower c.data_type == "geography"))).map
      column_to_property
  let indexes := (t.columns.filter (fun c =>
    indexKeywords.any (fun kw => strContains (strLower c.name) kw))).map
      (fun c => column_to_property_name c.name)
  Except.ok
    { label := label
      primary_property := primary_property
      properties := properties
      source_table := t.name
      has_geometry := geometry_column.isSome
      geometry_column := geometry_column
      indexes := indexes.take 5
      merge_keys := [primary_property] }

/-- `MappingRules.generate_relationship_type`: keyword match on the FK
column name, else `HAS_<TO_LABEL>`. -/
def generate_relationship_type (to_label fk_column : String) : String :=
  let fk_lower := strLower fk_column
  if strContains fk_lower "zipcode" || strContains fk_lower "zip" then "LOCATED_IN"
  else if strContains fk_lower "owner" then "OWNED_BY"
  else if strContains fk_lower "project" then "HAS_PROJECT"
  else if strContains fk_lower "parent" then "CHILD_OF"
  else if strContains fk_lower "manager" || strContains fk_lower "managed" then "MANAGED_BY"
  else "HAS_" ++ strUpper to_label

/-! ## Declarative mapping-document loader (`mapping_engine/config.py`)

A parsed YAML mapping document is embedded as `MappingDocument`: required
dict keys become plain fields (a missing required key raises before any
object is built, so a well-formed document value has them), keys read with
`.get(…)` become `Option` fields.  The only run-time failures of the
loader are the enum lookups `PropertyType[…]` / `RelationshipSourceType[…]`
(a `KeyError` on an unknown name), modelled as `Except.error`.  Note that
`parse_relationship_type` performs *no* validation of the variant-specific
fields: `from_id_column`, `to_id_column` and `computation_query` are all
plain `.get` reads defaulting to `None`. -/

structure PropConfig where
  name : String
  type : String
  nullable : Option Bool := none
  source_column : Option String := none
  source_type : Option String := none
  transformation : Option String := none
  default_value : Option String := none
deriving DecidableEq, Repr

structure NodeConfig where
  label : String
  primary_property : String
  properties : List PropConfig
  source_table : String
  has_geometry : Option Bool := none
  geometry_column : Option String := none
  indexes : Option (List String) := none
  merge_keys : Option (List String) := none
deriving DecidableEq, Repr

structure RelConfig where
  type : String
  from_label : String
  to_label : String
  source_type : String
  properties : Option (List PropConfig) := none
  source_table : Option String := none
  from_column : Option String := none
  to_column : Option String := none
  from_id_column : Option String := none
  to_id_column : Option String := none
  computation_query : Option String := none
  bidirectional : Option Bool := none
deriving DecidableEq, Repr

structure MappingDocument where
  nodes : Option (List NodeConfig) := none
  relationships : Option (List RelConfig) := none
deriving DecidableEq, Repr

/-- `PropertyType[name]`: Python `Enum` lookup by member name. -/
def propertyTypeByName (s : String) : Except String PropertyType :=
  match s with
  | "STRING" => Except.ok PropertyType.STRING
  | "INTEGER" => Except.ok PropertyType.INTEGER
  | "FLOAT" => Except.ok PropertyType.FLOAT
  | "BOOLEAN" => Except.ok PropertyType.BOOLEAN
  | "POINT" => Except.ok PropertyType.POINT
  | "DATE" => Except.ok PropertyType.DATE
  | "DATETIME" => Except.ok PropertyType.DATETIME
  | "LIST_STRING" => Except.ok PropertyType.LIST_STRING
  | "LIST_INTEGER" => Except.ok PropertyType.LIST_INTEGER
  | "LIST_FLOAT" => Except.ok PropertyType.LIST_FLOAT
  | _ => Except.error "KeyError: PropertyType"

/-- `RelationshipSourceType[name]`. -/
def relationshipSourceTypeByName (s : String) : Except String RelationshipSourceType :=
  match s with
  | "FOREIGN_KEY" => Except.ok RelationshipSourceType.FOREIGN_KEY
  | "COMPUTED" => Except.ok RelationshipSourceType.COMPUTED
  | "SPATIAL" => Except.ok RelationshipSourceType.SPATIAL
  | _ => Except.error "KeyError: RelationshipSourceType"

/-- `MappingConfigLoader.parse_property`. -/
def parse_property (p : PropConfig) : Except String Property := do
  let ty ← propertyTypeByName (strUpper p.type)
  Except.ok
    { name := p.name
      type := ty
      nullable := p.nullable.getD true
      source_column := p.source_column
      source_type := p.source_type
      transformation := p.transformation
      default_value := p.default_value }

/-- `MappingConfigLoader.parse_node_type`.  `merge_keys` is
`node_config.get('merge_keys', [])` — absent means the empty list. -/
def parse_node_type (c : NodeConfig) : Except String NodeType := do
  let properties ← c.properties.mapM parse_property
  Except.ok
    { label := c.label
      primary_property := c.primary_property
      properties := properties
      source_table := c.source_table
      has_geometry := c.has_geometry.getD false
      geometry_column := c.geometry_column
      indexes := c.indexes.getD []
      merge_keys := c.merge_keys.getD [] }

/-- `MappingConfigLoader.parse_relationship_type`: every variant-specific
field is `rel_config.get(…)`, defaulting to `None`; nothing is checked. -/
def parse_relationship_type (c : RelConfig) : Except String RelationshipType := do
  let properties ← (c.properties.getD []).mapM parse_property
  let source_type ← relationshipSourceTypeByName (strUpper c.source_type)
  Except.ok
    { type := c.type
      from_label := c.from_label
      to_label := c.to_label
      properties := properties
      source_type := source_type
      source_table := c.source_table
      from_column := c.from_column
      to_column := c.to_column
      from_id_column := c.from_id_column
      to_id_column := c.to_id_column
      computation_query := c.computation_query
      bidirectional := c.bidirectional.getD false }

/-- `MappingConfigLoader.load_graph_schema`. -/
def load_graph_schema (doc : MappingDocument) : Except String GraphSchema := do
  let nodes ← (doc.nodes.getD []).mapM parse_node_type
  let relationships ← (doc.relationships.getD []).mapM parse_relationship_type
  Except.ok { nodes := nodes, relationships := relationships }

/-! ## Spatial handler (`mapping_engine/spatial_handler.py`)

`CORE_SPATIAL_PROPERTIES`, `OPTIONAL_SPATIAL_PROPERTIES` and
`generate_spatial_properties`.  `target_srid` follows Python truthiness
(`if target_srid:`), so `0` behaves like `None`. -/

def CORE_SPATIAL_PROPERTIES : List (String × String × PropertyType) :=
  [("center_lat", "ST_Y(ST_Centroid({geom}))", PropertyType.FLOAT),
   ("center_lon", "ST_X(ST_Centroid({geom}))", PropertyType.FLOAT),
   ("area_km2", "ST_Area({geom}::geography) / 1000000.0", PropertyType.FLOAT)]

def OPTIONAL_SPATIAL_PROPERTIES : List (String × String × PropertyType) :=
  [("geometry_wkt", "ST_AsText({geom})", PropertyType.STRING),
   ("geometry_geojson", "ST_AsGeoJSON({geom})", PropertyType.STRING),
   ("perimeter_km", "ST_Perimeter({geom}::geography) / 1000.0", PropertyType.FLOAT),
   ("bbox_xmin", "ST_XMin({geom})", PropertyType.FLOAT),
   ("bbox_ymin", "ST_YMin({geom})", PropertyType.FLOAT),
   ("bbox_xmax", "ST_XMax({geom})", PropertyType.FLOAT),
   ("bbox_ymax", "ST_YMax({geom})", PropertyType.FLOAT)]

/-- The geometry expression: `ST_Transform(col, srid)` when a (truthy)
target SRID is set, else the raw column. -/
def spatialGeomExpr (geometry_column : String) (target_srid : Option Nat) : String :=
  match target_srid with
  | some srid =>
    if srid ≠ 0 then
      "ST_Transform(" ++ geometry_column ++ ", " ++ toString srid ++ ")"
    else geometry_column
  | none => geometry_column

/-- The `if/elif` chain deciding whether an optional spatial property is
included under the four flags. -/
def optionalSpatialIncluded (prop_name : String)
    (include_wkt include_geojson include_metrics include_bbox : Bool) : Bool :=
  if strContains prop_name "wkt" && include_wkt then true
  else if strContains prop_name "geojson" && include_geojson then true
  else if strContains prop_name "perimeter" && include_metrics then true
  else if strContains prop_name "bbox" && include_bbox then true
  else false

/-- One generated spatial `Property` (shared by the core and optional
loops of `generate_spatial_properties`). -/
def mkSpatialProperty (geometry_column geom_expr : String)
    (entry : String × String × PropertyType) : Property :=
  { name := entry.1
    type := entry.2.2
    nullable := true
    source_column := some geometry_column
    transformation := some (strReplace entry.2.1 "{geom}" geom_expr) }

/-- `SpatialDataHandler.generate_spatial_properties`: always the three core
properties, then each optional property its flag admits, in source order
(`table_name` is accepted but unused, as in the source). -/
def generate_spatial_properties (geometry_column : String) (table_name : String)
    (include_wkt include_geojson include_metrics include_bbox : Bool)
    (target_srid : Option Nat) : List Property :=
  let geom_expr := spatialGeomExpr geometry_column target_srid
  CORE_SPATIAL_PROPERTIES.map (mkSpatialProperty geometry_column geom_expr) ++
    (OPTIONAL_SPATIAL_PROPERTIES.filter (fun e =>
      optionalSpatialIncluded e.1 include_wkt include_geojson include_metrics
        include_bbox)).map (mkSpatialProperty geometry_column geom_expr)

/-! ## Python runtime values

`PyVal` embeds the Python values that flow through the migrator and the
auditor: `None`, `bool`, `int`, `float`, `Decimal`, `str` and
`date`/`datetime` (carried as its ISO text).  A float is an exact
numerator/denominator pair or one of `nan`/`inf`/`-inf`; every value built
by the embedding has a positive denominator.  This keeps every comparison
kernel-computable; binary rounding of Python floats is not modelled, which
is immaterial to the claims checked here (they concern which branch is
taken, not float rounding). -/

inductive PyFloat
  | finite (num : Int) (den : Nat)
  | nan
  | inf
  | ninf
deriving DecidableEq, Repr

inductive PyVal
  | pynone
  | pybool (b : Bool)
  | pyint (n : Int)
  | pyfloat (f : PyFloat)
  | pydecimal (num : Int) (den : Nat)
  | pystr (s : String)
  | pydate (iso : String)
deriving DecidableEq, Repr

/-- The value of a nonempty list of decimal digits. -/
def digitsVal? : List Char → Option Nat
  | [] => none
  | l => l.foldl (fun acc c =>
      match acc with
      | none => none
      | some n => if c.isDigit then some (10 * n + (c.toNat - 48)) else none)
      (some 0)

/-- Python `float(string)` on the decimal-notation subset the pipeline can
meet (optional sign, digits with an optional point, `nan`/`inf`); exponent
notation is not modelled.  Returns `none` for strings Python would reject
with `ValueError`. -/
def parsePyFloat? (s : String) : Option PyFloat :=
  let l := listStrip s.toList
  let (sign, body) :=
    match l with
    | '-' :: rest => ((-1 : Int), rest)
    | '+' :: rest => ((1 : Int), rest)
    | _ => ((1 : Int), l)
  let lowered := body.map Char.toLower
  if lowered = ['n', 'a', 'n'] then some PyFloat.nan
  else if lowered = ['i', 'n', 'f'] ∨
      lowered = ['i', 'n', 'f', 'i', 'n', 'i', 't', 'y'] then
    some (if sign = -1 then PyFloat.ninf else PyFloat.inf)
  else
    match body.splitOn '.' with
    | [intPart] =>
      (digitsVal? intPart).map (fun n => PyFloat.finite (sign * n) 1)
    | [intPart, fracPart] =>
      if intPart = [] ∧ fracPart = [] then none
      else if (intPart ++ fracPart).all Char.isDigit ∧ intPart ++ fracPart ≠ [] then
        match digitsVal? (intPart ++ fracPart) with
        | some n => some (PyFloat.finite (sign * n) (10 ^ fracPart.length))
        | none => none
      else none
    | _ => none

/-- Decimal rendering of `rem / den` (den a power of ten in practice), for
`str()` of floats; at most `fuel` digits, trailing zeros kept as produced. -/
def fracDigits : Nat → Nat → Nat → List Char
  | 0, _, _ => []
  | _ + 1, 0, _ => []
  | fuel + 1, rem, den =>
    if den = 0 then []
    else Char.ofNat (48 + rem * 10 / den) :: fracDigits fuel (rem * 10 % den) den

/-- Best-effort Python `str()` of a finite float value `num / den`. -/
def decimalStr (num : Int) (den : Nat) : String :=
  let sign := if num < 0 then "-" else ""
  if den ≤ 1 then sign ++ toString num.natAbs ++ ".0"
  else
    let ip := num.natAbs / den
    let rem := num.natAbs % den
    if rem = 0 then sign ++ toString ip ++ ".0"
    else sign ++ toString ip ++ "." ++ String.mk (fracDigits 30 rem den)

/-- Python `str(v)` for the embedded values (dates render as their ISO
text, as `str(date)` does). -/
def pyStr : PyVal → String
  | PyVal.pynone => "None"
  | PyVal.pybool b => if b then "True" else "False"
  | PyVal.pyint n => toString n
  | PyVal.pyfloat (PyFloat.finite n d) => decimalStr n d
  | PyVal.pyfloat PyFloat.nan => "nan"
  | PyVal.pyfloat PyFloat.inf => "inf"
  | PyVal.pyfloat PyFloat.ninf => "-inf"
  | PyVal.pydecimal n d => decimalStr n d
  | PyVal.pystr s => s
  | PyVal.pydate iso => iso

/-! ## Value cleaning and row projection (`data_migrator/generic_migrator.py`) -/

/-- `isinstance(val, date)` (datetime is a date subclass, both carry their
ISO text here). -/
def pyIsDate : PyVal → Bool
  | PyVal.pydate _ => true
  | _ => false

/-- `hasattr(val, '__float__')`: true for `int`, `bool`, `float` and
`Decimal`; `str`, `date` and `None` have no `__float__`. -/
def hasFloatAttr : PyVal → Bool
  | PyVal.pyint _ => true
  | PyVal.pybool _ => true
  | PyVal.pyfloat _ => true
  | PyVal.pydecimal _ _ => true
  | _ => false

/-- `float(val)` for the values with `__float__` (junk elsewhere; only used
under `hasFloatAttr`). -/
def pyFloatAttr : PyVal → PyFloat
  | PyVal.pyint n => PyFloat.finite n 1
  | PyVal.pybool b => PyFloat.finite (if b then 1 else 0) 1
  | PyVal.pyfloat f => f
  | PyVal.pydecimal n d => PyFloat.finite n d
  | _ => PyFloat.finite 0 1

/-- `_clean`: `None` passes through; a date becomes its ISO text; a value
with `__float__` becomes a float, with `nan`/`±inf` collapsed to `None`;
everything else is returned unchanged. -/
def pyClean (val : PyVal) : PyVal :=
  if val = PyVal.pynone then PyVal.pynone
  else if pyIsDate val then
    match val with
    | PyVal.pydate iso => PyVal.pystr iso
    | v => v
  else if hasFloatAttr val then
    match pyFloatAttr val with
    | PyFloat.finite n d => PyVal.pyfloat (PyFloat.finite n d)
    | _ => PyVal.pynone
  else val

/-- A SQL result row (`RealDictRow`): association list with the dict's
(unique) keys in column order. -/
abbrev PropRow := List (String × PyVal)

/-- `_row_to_props`: clean every value, dropping excluded keys and keys
whose cleaned value is `None`. -/
def rowToProps (row : PropRow) (exclude : List String) : PropRow :=
  row.filterMap (fun kv =>
    if ¬ exclude.contains kv.1 ∧ pyClean kv.2 ≠ PyVal.pynone then
      some (kv.1, pyClean kv.2)
    else none)

/-! ## The auditor's fuzzy value equality (`data_auditor/auditor.py`) -/

/-- `isinstance(val, (int, float))` — `bool` is an `int` subclass. -/
def isinstanceIntFloat : PyVal → Bool
  | PyVal.pyint _ => true
  | PyVal.pybool _ => true
  | PyVal.pyfloat _ => true
  | _ => false

/-- `float(val)` as used inside the auditor's `try` block: `none` models a
`ValueError`/`TypeError` that the `except` clause catches. -/
def pyFloatConv : PyVal → Option PyFloat
  | PyVal.pyint n => some (PyFloat.finite n 1)
  | PyVal.pybool b => some (PyFloat.finite (if b then 1 else 0) 1)
  | PyVal.pyfloat f => some f
  | PyVal.pydecimal n d => some (PyFloat.finite n d)
  | PyVal.pystr s => parsePyFloat? s
  | PyVal.pynone => none
  | PyVal.pydate _ => none

/-- `abs(float(a) - float(b)) < 1e-6` by cross-multiplication (any
`nan`/`inf` operand makes the comparison false, as in IEEE). -/
def floatAbsDiffLtTol : PyFloat → PyFloat → Bool
  | PyFloat.finite n1 d1, PyFloat.finite n2 d2 =>
    1000000 * (n1 * d2 - n2 * d1).natAbs < d1 * d2
  | _, _ => false

/-- The trimmed-string fallback `str(a).strip() == str(b).strip()`. -/
def strFallbackEq (a b : PyVal) : Bool :=
  strStrip (pyStr a) == strStrip (pyStr b)

/-- `_values_match`: `None` handling, then the numeric branch with absolute
tolerance `1e-6` whenever either side is an `int`/`float` and both convert,
else (or on conversion failure) trimmed case-sensitive string equality. -/
def valuesMatch (neo4j_val pg_val : PyVal) : Bool :=
  if neo4j_val = PyVal.pynone ∧ pg_val = PyVal.pynone then true
  else if neo4j_val = PyVal.pynone ∨ pg_val = PyVal.pynone then false
  else if isinstanceIntFloat neo4j_val || isinstanceIntFloat pg_val then
    match pyFloatConv neo4j_val, pyFloatConv pg_val with
    | some f1, some f2 => floatAbsDiffLtTol f1 f2
    | _, _ => strFallbackEq neo4j_val pg_val
  else strFallbackEq neo4j_val pg_val

/-! ## The target graph store

An operational model of the Neo4j state the migrator writes to: nodes with
an id, one label and a property map; relationships with a type, two node
ids and a property map.  Property maps are association lists with unique
keys (the Python dicts they embed cannot repeat a key).  The semantics of
each Cypher statement the migrator generates is the corresponding
transition function below; `SET m += map` and `SET r.p = row.p` follow
Cypher's null semantics (a null value removes the property). -/

structure GNode where
  id : Nat
  label : String
  props : PropRow
deriving DecidableEq, Repr

structure GRel where
  typ : String
  src : Nat
  dst : Nat
  props : PropRow
deriving DecidableEq, Repr

structure GDB where
  nodes : List GNode := []
  rels : List GRel := []
  nextId : Nat := 0
deriving DecidableEq, Repr

/-- The source database as an oracle from generated SQL text to result
rows: a fixed dataset answers the same query with the same rows. -/
abbrev SqlDb := String → List PropRow

/-- Dict lookup (`row[k]` / `row.get(k)`): the first binding of `k`. -/
def lookupProp : PropRow → String → Option PyVal
  | [], _ => none
  | kv :: rest, k => if kv.1 == k then some kv.2 else lookupProp rest k

def containsKey (m : PropRow) (k : String) : Bool :=
  m.any (fun kv => kv.1 == k)

/-- Set key `k` to `v`: replace in place when present, else append. -/
def insertProp (m : PropRow) (k : String) (v : PyVal) : PropRow :=
  if containsKey m k then m.map (fun kv => if kv.1 == k then (k, v) else kv)
  else m ++ [(k, v)]

def removeProp (m : PropRow) (k : String) : PropRow :=
  m.filter (fun kv => ¬ kv.1 == k)

/-- Cypher `SET n += row`: each entry of `row` is written over the map; a
null value removes the property. -/
def updateProps (props row : PropRow) : PropRow :=
  row.foldl (fun acc kv =>
    if kv.2 = PyVal.pynone then removeProp acc kv.1 else insertProp acc kv.1 kv.2) props

/-- The generated relationship `SET` clause `SET r.p = row.p, …` over the
declared property names: an absent or null `row.p` removes `r.p`. -/
def applySetClause (propNames : List String) (row props : PropRow) : PropRow :=
  propNames.foldl (fun acc p =>
    match lookupProp row p with
    | some v => if v = PyVal.pynone then removeProp acc p else insertProp acc p v
    | none => removeProp acc p) props

/-- The merge-key values of a row, in merge-key order.  Cypher refuses to
`MERGE` on a null property value, which is the error branch (a key the
cleaned row lacks was null at the source). -/
def rowKvs (keys : List String) (row : PropRow) : Except String (List (String × PyVal)) :=
  match keys with
  | [] => Except.ok []
  | k :: ks =>
    match lookupProp row k with
    | some v =>
      if v = PyVal.pynone then Except.error "cannot merge on null property value"
      else
        match rowKvs ks row with
        | Except.error e => Except.error e
        | Except.ok kvs => Except.ok ((k, v) :: kvs)
    | none => Except.error "cannot merge on null property value"

/-- Does node `n` match the pattern `(n:label {k₁: v₁, …})`? -/
def nodeMatches (n : GNode) (label : String) (kvs : List (String × PyVal)) : Bool :=
  n.label == label && kvs.all (fun kv => lookupProp n.props kv.1 == some kv.2)

/-- One `UNWIND` row of the node-merge statement
`MERGE (n:label {merge keys}) SET n += row`: update every matching node,
or create one node carrying the pattern keys plus the row. -/
def mergeNodeRow (label : String) (keys : List String) (row : PropRow)
    (st : GDB) : Except String GDB :=
  match rowKvs keys row with
  | Except.error e => Except.error e
  | Except.ok kvs =>
    if st.nodes.any (fun n => nodeMatches n label kvs) then
      Except.ok { st with nodes := st.nodes.map (fun n =>
        if nodeMatches n label kvs then { n with props := updateProps n.props row } else n) }
    else
      Except.ok { st with
        nodes := st.nodes ++ [{ id := st.nextId, label := label, props := updateProps kvs row }]
        nextId := st.nextId + 1 }

/-- All rows of one node-merge statement, in order. -/
def mergeRows (label : String) (keys : List String) :
    List PropRow → GDB → Except String GDB
  | [], st => Except.ok st
  | row :: rest, st =>
    match mergeNodeRow label keys row st with
    | Except.error e => Except.error e
    | Except.ok st' => mergeRows label keys rest st'

/-- Cypher `MATCH (a:label {key: v})`: every node carrying the label and
the value; a null parameter matches nothing. -/
def matchByKey (st : GDB) (label key : String) (v : PyVal) : List GNode :=
  if v = PyVal.pynone then []
  else st.nodes.filter (fun n => n.label == label && lookupProp n.props key == some v)

def edgeIs (r : GRel) (typ : String) (a b : Nat) : Bool :=
  r.typ == typ && r.src == a && r.dst == b

def hasEdge (st : GDB) (typ : String) (a b : Nat) : Bool :=
  st.rels.any (fun r => edgeIs r typ a b)

/-- `MERGE (a)-[r:typ]->(b)` with no `SET` clause (the FK statement). -/
def addEdgeIfAbsent (typ : String) (a b : Nat) (st : GDB) : GDB × Nat :=
  if hasEdge st typ a b then (st, 0)
  else ({ st with rels := st.rels ++ [{ typ := typ, src := a, dst := b, props := [] }] }, 1)

/-- The id pairs of the cartesian product of two `MATCH` results. -/
def idPairs (as bs : List GNode) : List (Nat × Nat) :=
  as.foldr (fun a acc => bs.map (fun b => (a.id, b.id)) ++ acc) []

/-- Fold `MERGE`-an-edge over all matched endpoint pairs of one row. -/
def addEdgesList (typ : String) : List (Nat × Nat) → GDB → GDB × Nat
  | [], st => (st, 0)
  | p :: ps, st =>
    let r1 := addEdgeIfAbsent typ p.1 p.2 st
    let r2 := addEdgesList typ ps r1.1
    (r2.1, r1.2 + r2.2)

/-- `MERGE (a)-[r:typ]->(b)` or `MERGE (a)-[r:typ]-(b)` followed by the
generated `SET` clause (the computed/spatial statement). -/
def mergeEdgeStep (typ : String) (bidir : Bool) (propNames : List String)
    (row : PropRow) (a b : Nat) (st : GDB) : GDB × Nat :=
  let matchesHere := fun (r : GRel) =>
    if bidir then edgeIs r typ a b || edgeIs r typ b a else edgeIs r typ a b
  if st.rels.any matchesHere then
    ({ st with rels := st.rels.map (fun r =>
      if matchesHere r then { r with props := applySetClause propNames row r.props } else r) }, 0)
  else
    ({ st with rels := st.rels ++
      [{ typ := typ, src := a, dst := b, props := applySetClause propNames row [] }] }, 1)

def mergeEdgesList (typ : String) (bidir : Bool) (propNames : List String)
    (row : PropRow) : List (Nat × Nat) → GDB → GDB × Nat
  | [], st => (st, 0)
  | p :: ps, st =>
    let r1 := mergeEdgeStep typ bidir propNames row p.1 p.2 st
    let r2 := mergeEdgesList typ bidir propNames row ps r1.1
    (r2.1, r1.2 + r2.2)

/-! ## Generic migrator (`data_migrator/generic_migrator.py`) -/

/-- Python truthiness of an `Optional[str]`: `None` and `""` are falsy. -/
def optTruthy (o : Option String) : Bool :=
  ¬ (o.getD "" == "")

/-- Python f-string rendering of an `Optional[str]` (`None` prints as the
text `None`). -/
def optShow (o : Option String) : String :=
  o.getD "None"

/-- One projection item of `_build_select`: transformation, alias, or
plain column (`prop.source_column or prop.name`). -/
def selectPart (prop : Property) : String :=
  if optTruthy prop.transformation then
    prop.transformation.getD "" ++ " AS " ++ prop.name
  else if optTruthy prop.source_column ∧ ¬ (prop.source_column.getD "" == prop.name) then
    prop.source_column.getD "" ++ " AS " ++ prop.name
  else if optTruthy prop.source_column then prop.source_column.getD "" else prop.name

/-- `GenericMigrator._build_select`. -/
def buildSelect (node : NodeType) : String :=
  "SELECT " ++ String.intercalate ", " (node.properties.map selectPart) ++
    " FROM " ++ node.source_table

/-- The cleaned rows `migrate_node` sends to the store: the projection
result, each row through `_row_to_props` with the default empty exclude
set. -/
def nodeRowsOf (db : SqlDb) (node : NodeType) : List PropRow :=
  (db (buildSelect node)).map (fun r => rowToProps r [])

/-- `GenericMigrator.migrate_node`: run the projection once, clean every
row, then merge all rows (batching does not change the sequential row
order, so the batches are not reflected in the state semantics); returns
the row count. -/
def migrate_node (db : SqlDb) (node : NodeType) (st : GDB) :
    Except String (GDB × Nat) :=
  match mergeRows node.label node.merge_keys (nodeRowsOf db node) st with
  | Except.error e => Except.error e
  | Except.ok st' => Except.ok (st', (nodeRowsOf db node).length)

/-- `GenericMigrator._get_node`: `ValueError` when the label is absent. -/
def getNode (schema : GraphSchema) (label : String) : Except String NodeType :=
  match schema.get_node_by_label label with
  | some n => Except.ok n
  | none => Except.error ("ValueError: node label not found in schema")

/-- `merge_keys[0]`: `IndexError` on an empty merge-key list. -/
def firstMergeKey (n : NodeType) : Except String String :=
  match n.merge_keys with
  | [] => Except.error "IndexError: list index out of range"
  | k :: _ => Except.ok k

/-- The pair query of `_migrate_rel_fk` (no null filter when the two id
columns coincide, else `WHERE to_id_column IS NOT NULL`). -/
def fkSql (rel : RelationshipType) : String :=
  let f := optShow rel.from_id_column
  let t := optShow rel.to_id_column
  let base := "SELECT " ++ f ++ " AS from_id, " ++ t ++ " AS to_id FROM " ++
    optShow rel.source_table
  if f == t then base else base ++ " WHERE " ++ t ++ " IS NOT NULL"

/-- `r["from_id"], r["to_id"]` of a pair row (`KeyError` when a column is
missing from the result). -/
def extractPair (r : PropRow) : Except String (PyVal × PyVal) :=
  match lookupProp r "from_id", lookupProp r "to_id" with
  | some f, some t => Except.ok (f, t)
  | _, _ => Except.error "KeyError"

/-- The per-pair body of the FK relationship statement: match both
endpoints by merge key, merge a directed edge over every matched pair. -/
def fkPairsFold (typ from_label from_key to_label to_key : String) :
    List (PyVal × PyVal) → GDB → GDB × Nat
  | [], st => (st, 0)
  | p :: ps, st =>
    let as := matchByKey st from_label from_key p.1
    let bs := matchByKey st to_label to_key p.2
    let r1 := addEdgesList typ (idPairs as bs) st
    let r2 := fkPairsFold typ from_label from_key to_label to_key ps r1.1
    (r2.1, r1.2 + r2.2)

/-- `GenericMigrator._migrate_rel_fk`. -/
def migrateRelFk (db : SqlDb) (schema : GraphSchema) (rel : RelationshipType)
    (st : GDB) : Except String (GDB × Nat) :=
  if ¬ optTruthy rel.from_id_column ∨ ¬ optTruthy rel.to_id_column then
    Except.error "ValueError: FK relationship requires from_id_column and to_id_column"
  else
    match getNode schema rel.from_label with
    | Except.error e => Except.error e
    | Except.ok from_node =>
      match getNode schema rel.to_label with
      | Except.error e => Except.error e
      | Except.ok to_node =>
        match firstMergeKey from_node with
        | Except.error e => Except.error e
        | Except.ok from_key =>
          match firstMergeKey to_node with
          | Except.error e => Except.error e
          | Except.ok to_key =>
            match (db (fkSql rel)).mapM extractPair with
            | Except.error e => Except.error e
            | Except.ok pairs =>
              Except.ok (fkPairsFold rel.type rel.from_label from_key
                rel.to_label to_key pairs st)

/-- The cleaned row of `_migrate_rel_computed`: the two ids (`KeyError`
when missing) and the declared relationship properties present in the row,
cleaned. -/
def extractComputedRow (propNames : List String) (r : PropRow) :
    Except String ((PyVal × PyVal) × PropRow) :=
  match lookupProp r "from_id", lookupProp r "to_id" with
  | some f, some t =>
    Except.ok ((f, t),
      propNames.filterMap (fun p => (lookupProp r p).map (fun v => (p, pyClean v))))
  | _, _ => Except.error "KeyError"

/-- The per-row body of the computed/spatial relationship statement. -/
def computedRowsFold (typ : String) (bidir : Bool) (propNames : List String)
    (from_label from_key to_label to_key : String) :
    List ((PyVal × PyVal) × PropRow) → GDB → GDB × Nat
  | [], st => (st, 0)
  | row :: rest, st =>
    let as := matchByKey st from_label from_key row.1.1
    let bs := matchByKey st to_label to_key row.1.2
    let r1 := mergeEdgesList typ bidir propNames row.2 (idPairs as bs) st
    let r2 := computedRowsFold typ bidir propNames from_label from_key
      to_label to_key rest r1.1
    (r2.1, r1.2 + r2.2)

/-- `GenericMigrator._migrate_rel_computed` (Python truthiness again:
a missing *or empty* `computation_query` raises `ValueError`). -/
def migrateRelComputed (db : SqlDb) (schema : GraphSchema)
    (rel : RelationshipType) (st : GDB) : Except String (GDB × Nat) :=
  if ¬ optTruthy rel.computation_query then
    Except.error "ValueError: computed relationship has no computation_query"
  else
    match getNode schema rel.from_label with
    | Except.error e => Except.error e
    | Except.ok from_node =>
      match getNode schema rel.to_label with
      | Except.error e => Except.error e
      | Except.ok to_node =>
        match firstMergeKey from_node with
        | Except.error e => Except.error e
        | Except.ok from_key =>
          match firstMergeKey to_node with
          | Except.error e => Except.error e
          | Except.ok to_key =>
            let propNames := rel.properties.map (·.name)
            match (db (rel.computation_query.getD "")).mapM
                (extractComputedRow propNames) with
            | Except.error e => Except.error e
            | Except.ok rows =>
              Except.ok (computedRowsFold rel.type rel.bidirectional propNames
                rel.from_label from_key rel.to_label to_key rows st)

/-- `GenericMigrator.migrate_relationship`: dispatch on `source_type`
(`FOREIGN_KEY` to the FK path, everything else to the computed path). -/
def migrate_relationship (db : SqlDb) (schema : GraphSchema)
    (rel : RelationshipType) (st : GDB) : Except String (GDB × Nat) :=
  if rel.source_type = RelationshipSourceType.FOREIGN_KEY then
    migrateRelFk db schema rel st
  else
    migrateRelComputed db schema rel st

/-! ## `migrate_all` with its step trace

`MigStep` records the externally visible side effects in order: the
optional clear, the constraint/index setup, and each completed node or
relationship step.  The trace produced up to a failure is returned next to
the `Except` outcome. -/

inductive MigStep
  | clearStep
  | setupStep
  | nodeStep (label : String)
  | relStep (typ : String)
deriving DecidableEq, Repr

/-- The node loop of `migrate_all`, accumulating `{label: count}`. -/
def nodePhase (db : SqlDb) :
    List NodeType → GDB → List MigStep × Except String (GDB × List (String × Nat))
  | [], st => ([], Except.ok (st, []))
  | node :: rest, st =>
    match migrate_node db node st with
    | Except.error e => ([], Except.error e)
    | Except.ok (st', c) =>
      let next := nodePhase db rest st'
      (MigStep.nodeStep node.label :: next.1,
        match next.2 with
        | Except.error e => Except.error e
        | Except.ok (st'', cs) => Except.ok (st'', (node.label, c) :: cs))

/-- The relationship loop of `migrate_all`, accumulating `{type: count}`. -/
def relPhase (db : SqlDb) (schema : GraphSchema) :
    List RelationshipType → GDB →
    List MigStep × Except String (GDB × List (String × Nat))
  | [], st => ([], Except.ok (st, []))
  | rel :: rest, st =>
    match migrate_relationship db schema rel st with
    | Except.error e => ([], Except.error e)
    | Except.ok (st', c) =>
      let next := relPhase db schema rest st'
      (MigStep.relStep rel.type :: next.1,
        match next.2 with
        | Except.error e => Except.error e
        | Except.ok (st'', cs) => Except.ok (st'', (rel.type, c) :: cs))

/-- `MATCH (n) DETACH DELETE n` (node ids are not reused). -/
def clearDb (st : GDB) : GDB :=
  { nodes := [], rels := [], nextId := st.nextId }

/-- `GenericMigrator.migrate_all`: optional clear, then `setup_schema`
(constraint/index DDL — no effect on node or relationship content), then
all node types, then all relationship types, in schema order.  Returns the
step trace next to the outcome; on success the outcome carries the final
store plus the `{label: count}` and `{type: count}` summaries. -/
def migrate_all (db : SqlDb) (schema : GraphSchema) (clear : Bool) (st : GDB) :
    List MigStep ×
      Except String (GDB × List (String × Nat) × List (String × Nat)) :=
  let cleared := if clear then clearDb st else st
  let log0 : List MigStep := if clear then [MigStep.clearStep] else []
  let log1 := log0 ++ [MigStep.setupStep]
  let nodeRes := nodePhase db schema.nodes cleared
  match nodeRes.2 with
  | Except.error e => (log1 ++ nodeRes.1, Except.error e)
  | Except.ok (st1, node_counts) =>
    let relRes := relPhase db schema schema.relationships st1
    match relRes.2 with
    | Except.error e => (log1 ++ nodeRes.1 ++ relRes.1, Except.error e)
    | Except.ok (st2, rel_counts) =>
      (log1 ++ nodeRes.1 ++ relRes.1, Except.ok (st2, node_counts, rel_counts))

/-! ## Proof-support predicates for the idempotence development

The run-twice analysis of `migrate_all` is phrased with the following
predicates: a source database whose rows are genuine dicts (unique keys),
the persistence of a "some node matches this merge-key pattern" fact, a
shape correspondence between two node lists that fixes ids, labels and
merge-key values, the projection of a relationship list to its
(type, endpoints) shape, and the per-relationship postcondition that every
endpoint pair derived from the source has its edge in the store. -/

/-- Every result row of the source database has unique column names (SQL
result dicts cannot repeat a key). -/
def RowKeysNodup (db : SqlDb) : Prop :=
  ∀ q : String, ∀ r ∈ db q, (r.map Prod.fst).Nodup

/-- Some node in the store matches `(label, kvs)`. -/
def MatchFact (label : String) (kvs : List (String × PyVal)) (st : GDB) : Prop :=
  ∃ n ∈ st.nodes, nodeMatches n label kvs = true

/-- `n'` is `n` with the same id and label and the same merge-key values
for every node type of the schema carrying `n`'s label. -/
def keyLookupEq (schema : GraphSchema) (n n' : GNode) : Prop :=
  n'.id = n.id ∧ n'.label = n.label ∧
    ∀ N ∈ schema.nodes, N.label = n.label → ∀ k ∈ N.merge_keys,
      lookupProp n'.props k = lookupProp n.props k

/-- Positionwise `keyLookupEq` between two node lists. -/
def NodeShapeEq (schema : GraphSchema) (old cur : List GNode) : Prop :=
  List.Forall₂ (keyLookupEq schema) old cur

/-- The (type, source, target) shape of a relationship. -/
def relProj (r : GRel) : String × Nat × Nat :=
  (r.typ, r.src, r.dst)

/-- Two relationship lists with the same shapes (property maps may
differ). -/
def RelShapeEq (old cur : List GRel) : Prop :=
  cur.map relProj = old.map relProj

/-- The edge a computed-relationship row must find: either orientation
when bidirectional, the directed edge otherwise. -/
def edgeEnsured (typ : String) (bidir : Bool) (a b : Nat) (st : GDB) : Bool :=
  if bidir then hasEdge st typ a b || hasEdge st typ b a else hasEdge st typ a b

/-- The id products `idPairs` computes, on bare id lists. -/
def natProd (is js : List Nat) : List (Nat × Nat) :=
  is.foldr (fun i acc => js.map (fun j => (i, j)) ++ acc) []

/-- Postcondition of a completed foreign-key relationship step, stated
against a store `st`: every endpoint pair derived from the source pairs
has its directed edge in `st`. -/
def fkRelDone (db : SqlDb) (schema : GraphSchema) (rel : RelationshipType)
    (st : GDB) : Prop :=
  ∀ from_node to_node from_key to_key pairs,
    getNode schema rel.from_label = Except.ok from_node →
    getNode schema rel.to_label = Except.ok to_node →
    firstMergeKey from_node = Except.ok from_key →
    firstMergeKey to_node = Except.ok to_key →
    (db (fkSql rel)).mapM extractPair = Except.ok pairs →
    ∀ p ∈ pairs, ∀ a ∈ matchByKey st rel.from_label from_key p.1,
      ∀ b ∈ matchByKey st rel.to_label to_key p.2,
      hasEdge st rel.type a.id b.id = true

/-- Postcondition of a completed computed/spatial relationship step. -/
def compRelDone (db : SqlDb) (schema : GraphSchema) (rel : RelationshipType)
    (st : GDB) : Prop :=
  ∀ from_node to_node from_key to_key rows,
    getNode schema rel.from_label = Except.ok from_node →
    getNode schema rel.to_label = Except.ok to_node →
    firstMergeKey from_node = Except.ok from_key →
    firstMergeKey to_node = Except.ok to_key →
    (db (rel.computation_query.getD "")).mapM
      (extractComputedRow (rel.properties.map (·.name))) = Except.ok rows →
    ∀ row ∈ rows, ∀ a ∈ matchByKey st rel.from_label from_key row.1.1,
      ∀ b ∈ matchByKey st rel.to_label to_key row.1.2,
      edgeEnsured rel.type rel.bidirectional a.id b.id st = true

/-- The per-relationship postcondition, by source type. -/
def relDone (db : SqlDb) (schema : GraphSchema) (rel : RelationshipType)
    (st : GDB) : Prop :=
  (rel.source_type = RelationshipSourceType.FOREIGN_KEY →
    fkRelDone db schema rel st) ∧
  (rel.source_type ≠ RelationshipSourceType.FOREIGN_KEY →
    compRelDone db schema rel st)

/-! ## Concrete instances used by the witnesses and counterexamples -/

/-- A lookup-shaped table whose row count is exactly 1000. -/
def cexTableRc1000 : Table :=
  { name := "statuses"
    schema := "public"
    columns := [{ name := "code", data_type := "character varying", is_nullable := false },
                { name := "name", data_type := "text", is_nullable := true }]
    row_count := some 1000 }

/-- A lookup-shaped table whose row count is unset (the count query
failed). -/
def cexTableRcUnset : Table :=
  { name := "statuses2"
    schema := "public"
    columns := [{ name := "code", data_type := "character varying", is_nullable := false },
                { name := "name", data_type := "text", is_nullable := true }]
    row_count := none }

/-- A textbook junction table: two external FKs forming the composite
primary key, no extra columns. -/
def cexJunctionTable : Table :=
  { name := "project_tags"
    schema := "public"
    columns := [{ name := "project_id", data_type := "integer", is_nullable := false },
                { name := "tag_id", data_type := "integer", is_nullable := false }]
    primary_key := some { name := "pk", columns := ["project_id", "tag_id"] }
    foreign_keys :=
      [{ name := "f1", column := "project_id", referenced_table := "projects",
         referenced_column := "id" },
       { name := "f2", column := "tag_id", referenced_table := "tags",
         referenced_column := "id" }]
    row_count := some 10 }

/-- Two self-referencing FKs, a primary key whose columns differ from the
FK columns, and lookup-indicator column names: not a junction table, but
it passes the lookup test. -/
def cexSelfFkTable : Table :=
  { name := "tag"
    schema := "public"
    columns := [{ name := "code", data_type := "character varying", is_nullable := false },
                { name := "name", data_type := "text", is_nullable := true },
                { name := "parent_code", data_type := "character varying", is_nullable := true },
                { name := "other_code", data_type := "character varying", is_nullable := true }]
    primary_key := some { name := "pk", columns := ["code", "name"] }
    foreign_keys :=
      [{ name := "f1", column := "parent_code", referenced_table := "tag",
         referenced_column := "code" },
       { name := "f2", column := "other_code", referenced_table := "tag",
         referenced_column := "code" }]
    row_count := some 10 }

/-- A table without a primary key, for the automatic mapping path. -/
def witTableNoPk : Table :=
  { name := "events"
    schema := "public"
    columns := [{ name := "event_id", data_type := "integer", is_nullable := false },
                { name := "name", data_type := "text", is_nullable := true }] }

/-- A source row for the row-projection witness. -/
def witRowC9 : PropRow :=
  [("a", PyVal.pynone), ("b", PyVal.pyint 1), ("c", PyVal.pystr "x")]

/-- A declarative node config that supplies no `merge_keys` key. -/
def cexNodeCfgNoMergeKeys : NodeConfig :=
  { label := "Zip"
    primary_property := "zip"
    properties := [{ name := "zip", type := "string" }]
    source_table := "zips" }

/-- A mapping document whose single node omits `merge_keys`. -/
def cexDocNoMergeKeys : MappingDocument :=
  { nodes := some [cexNodeCfgNoMergeKeys] }

/-- A declarative document with one well-formed node and one foreign-key
relationship that omits its required `to_id_column`. -/
def cexDocC2 : MappingDocument :=
  { nodes := some
      [{ label := "Project"
         primary_property := "id"
         properties := [{ name := "id", type := "integer" }]
         source_table := "projects"
         merge_keys := some ["id"] }]
    relationships := some
      [{ type := "LOCATED_IN"
         from_label := "Project"
         to_label := "Project"
         source_type := "foreign_key"
         source_table := some "projects"
         from_id_column := some "id" }] }

/-- The node type `cexDocC2`'s node config loads to. -/
def cexNodeTypeC2 : NodeType :=
  { label := "Project"
    primary_property := "id"
    properties :=
      [{ name := "id", type := PropertyType.INTEGER, nullable := true }]
    source_table := "projects"
    merge_keys := ["id"] }

/-- The foreign-key relationship `cexDocC2`'s relationship config loads
to: `to_id_column` is `none`. -/
def cexRelC2 : RelationshipType :=
  { type := "LOCATED_IN"
    from_label := "Project"
    to_label := "Project"
    source_type := RelationshipSourceType.FOREIGN_KEY
    source_table := some "projects"
    from_id_column := some "id" }

/-- The graph schema `cexDocC2` loads to (checked by the counterexample
theorem). -/
def cexSchemaC2 : GraphSchema :=
  { nodes := [cexNodeTypeC2]
    relationships := [cexRelC2] }

/-- A two-row source dataset for the `cexSchemaC2` pipeline run. -/
def cexDbC2 : SqlDb := fun q =>
  if q = "SELECT id FROM projects" then
    [[("id", PyVal.pyint 1)], [("id", PyVal.pyint 2)]]
  else []

/-- The node type of the C1 idempotence witness: one string-keyed node. -/
def witNodeC1 : NodeType :=
  { label := "P"
    primary_property := "id"
    properties := [{ name := "id", type := PropertyType.STRING }]
    source_table := "t"
    merge_keys := ["id"] }

/-- The FK relationship of the C1 witness (both endpoints matched on
`id`). -/
def witRelC1 : RelationshipType :=
  { type := "R"
    from_label := "P"
    to_label := "P"
    source_type := RelationshipSourceType.FOREIGN_KEY
    source_table := some "t"
    from_id_column := some "id"
    to_id_column := some "id" }

def witSchemaC1 : GraphSchema :=
  { nodes := [witNodeC1], relationships := [witRelC1] }

/-- The source dataset of the C1 witness: one row for the node statement,
one pair row for the FK statement. -/
def witDbC1 : SqlDb := fun q =>
  if q == "SELECT id FROM t" then [[("id", PyVal.pystr "a")]]
  else if q == "SELECT id AS from_id, id AS to_id FROM t" then
    [[("from_id", PyVal.pystr "a"), ("to_id", PyVal.pystr "a")]]
  else []

/-- The store after the first C1-witness run: one node, one self edge. -/
def witStFC1 : GDB :=
  { nodes := [{ id := 0, label := "P", props := [("id", PyVal.pystr "a")] }]
    rels := [{ typ := "R", src := 0, dst := 0, props := [] }]
    nextId := 1 }

/-! # Theorems -/

/-! ## C6 — totality and value of the type mapping -/

/-- **C6.** `postgres_type_to_neo4j_type` is total by construction (it is a
function in this embedding); any source type matching no `TYPE_MAPPING`
pattern and not an array maps to `STRING`, and each documented family maps
as stated: integer family to `INTEGER`; `numeric`/`real`/`double
precision`/`money` to `FLOAT`; char/text variants to `STRING`; `boolean`
to `BOOLEAN`; `date` to `DATE`; timestamp variants to `DATETIME`; array
types to the corresponding list type. -/
theorem C6_type_mapping :
    (∀ s : String, strContains (strLower s) "[]" = false →
      TYPE_MAPPING.find? (fun p => strContains (strLower s) p.1) = none →
      postgres_type_to_neo4j_type s = PropertyType.STRING) ∧
    postgres_type_to_neo4j_type "integer" = PropertyType.INTEGER ∧
    postgres_type_to_neo4j_type "bigint" = PropertyType.INTEGER ∧
    postgres_type_to_neo4j_type "smallint" = PropertyType.INTEGER ∧
    postgres_type_to_neo4j_type "numeric" = PropertyType.FLOAT ∧
    postgres_type_to_neo4j_type "real" = PropertyType.FLOAT ∧
    postgres_type_to_neo4j_type "double precision" = PropertyType.FLOAT ∧
    postgres_type_to_neo4j_type "money" = PropertyType.FLOAT ∧
    postgres_type_to_neo4j_type "character varying" = PropertyType.STRING ∧
    postgres_type_to_neo4j_type "varchar" = PropertyType.STRING ∧
    postgres_type_to_neo4j_type "text" = PropertyType.STRING ∧
    postgres_type_to_neo4j_type "boolean" = PropertyType.BOOLEAN ∧
    postgres_type_to_neo4j_type "date" = PropertyType.DATE ∧
    postgres_type_to_neo4j_type "timestamp" = PropertyType.DATETIME ∧
    postgres_type_to_neo4j_type "timestamp with time zone" = PropertyType.DATETIME ∧
    postgres_type_to_neo4j_type "integer[]" = PropertyType.LIST_INTEGER ∧
    postgres_type_to_neo4j_type "numeric[]" = PropertyType.LIST_FLOAT ∧
    postgres_type_to_neo4j_type "text[]" = PropertyType.LIST_STRING ∧
    postgres_type_to_neo4j_type "uuid" = PropertyType.STRING ∧
    postgres_type_to_neo4j_type "jsonb" = PropertyType.STRING := by
  refine ⟨fun s h1 h2 => ?_, ?_, ?_, ?_, ?_, ?_, ?_, ?_, ?_, ?_, ?_, ?_, ?_,
    ?_, ?_, ?_, ?_, ?_, ?_, ?_⟩
  · simp only [postgres_type_to_neo4j_type, h1, h2, Bool.false_eq_true, if_false]
  all_goals rfl

/-- An unknown scalar type (`uuid`) takes the default branch of the type
mapping. -/
theorem C6_type_mapping_witness :
    postgres_type_to_neo4j_type "uuid" = PropertyType.STRING :=
  C6_type_mapping.1 "uuid" rfl rfl

/-! ## C7 — spatial property counts under the optional flags -/

/-- **C7.** For every geometry column, table name and target SRID,
`generate_spatial_properties` returns exactly the 3 core properties with
all four optional flags off, and exactly 10 properties with all four on. -/
theorem C7_spatial_property_counts :
    ∀ (geometry_column table_name : String) (srid : Option Nat),
      (generate_spatial_properties geometry_column table_name
        false false false false srid).length = 3 ∧
      (generate_spatial_properties geometry_column table_name
        true true true true srid).length = 10 := by
  intro geometry_column table_name srid
  exact ⟨rfl, rfl⟩

/-! ## C8 — the auditor's fuzzy value equality -/

/-- **C8.** `_values_match`: `10.0000001` vs `10` is a numeric comparison
within the absolute tolerance and yields true; `"A"` vs `"a "` is trimmed
but case-sensitive string comparison and yields false; `None` vs `None` is
true; `None` vs `5` is false. -/
theorem C8_values_match :
    valuesMatch (PyVal.pyfloat (PyFloat.finite 100000001 10000000))
      (PyVal.pyint 10) = true ∧
    valuesMatch (PyVal.pystr "A") (PyVal.pystr "a ") = false ∧
    valuesMatch PyVal.pynone PyVal.pynone = true ∧
    valuesMatch PyVal.pynone (PyVal.pyint 5) = false := by
  refine ⟨by decide, by decide, rfl, rfl⟩

/-! ## C9 — the projected property dict carries no nulls -/

/-- **C9.** Every entry of the property dict `_row_to_props` builds has a
non-null value and a key outside the exclude set, and its value is the
cleaned value of a source-row entry with the same key: a null source
column is omitted entirely, never written as a null property. -/
theorem C9_row_props_no_nulls :
    ∀ (row : PropRow) (exclude : List String) (k : String) (v : PyVal),
      (k, v) ∈ rowToProps row exclude →
      v ≠ PyVal.pynone ∧ exclude.contains k = false ∧
        ∃ v0, (k, v0) ∈ row ∧ v = pyClean v0 := by
  intro row exclude k v hmem
  rw [rowToProps, List.mem_filterMap] at hmem
  obtain ⟨⟨k0, v0⟩, hin, heq⟩ := hmem
  dsimp only at heq
  split at heq
  next hc =>
    have h' := Option.some.inj heq
    have hk : k0 = k := congrArg Prod.fst h'
    have hv : pyClean v0 = v := congrArg Prod.snd h'
    subst hk
    exact ⟨hv ▸ hc.2, Bool.eq_false_iff.mpr hc.1, v0, hin, hv.symm⟩
  next hc =>
    exact absurd heq (by simp)

/-- The projected dict of a concrete row with a null column and an
excluded column: the surviving entry is non-null, outside the exclude set,
and the cleaned value of its source entry. -/
theorem C9_row_props_no_nulls_witness :
    PyVal.pyfloat (PyFloat.finite 1 1) ≠ PyVal.pynone ∧
      (["c"] : List String).contains "b" = false ∧
      ∃ v0, ("b", v0) ∈ witRowC9 ∧
        PyVal.pyfloat (PyFloat.finite 1 1) = pyClean v0 :=
  C9_row_props_no_nulls witRowC9 ["c"] "b" (PyVal.pyfloat (PyFloat.finite 1 1))
    (by decide)

/-! ## C10 — `_clean` turns every `__float__`-convertible value into a float -/

/-- **C10.** `_clean` sends every non-`None`, non-date value with a
`__float__` conversion — ints, bools, Decimals and floats alike — to the
float it converts to, with `nan` and `±inf` collapsed to `None`; in
particular integer and boolean column values reach the target as floats,
not as integers or booleans. -/
theorem C10_clean_floats :
    (∀ v : PyVal, v ≠ PyVal.pynone → pyIsDate v = false → hasFloatAttr v = true →
      pyClean v =
        (match pyFloatAttr v with
          | PyFloat.finite n d => PyVal.pyfloat (PyFloat.finite n d)
          | _ => PyVal.pynone)) ∧
    (∀ n : Int, pyClean (PyVal.pyint n) = PyVal.pyfloat (PyFloat.finite n 1)) ∧
    (∀ b : Bool, pyClean (PyVal.pybool b) =
      PyVal.pyfloat (PyFloat.finite (if b then 1 else 0) 1)) ∧
    (∀ n : Int, ∀ d : Nat, pyClean (PyVal.pydecimal n d) =
      PyVal.pyfloat (PyFloat.finite n d)) ∧
    pyClean (PyVal.pyfloat PyFloat.nan) = PyVal.pynone ∧
    pyClean (PyVal.pyfloat PyFloat.inf) = PyVal.pynone ∧
    pyClean (PyVal.pyfloat PyFloat.ninf) = PyVal.pynone := by
  refine ⟨fun v hn hd hf => ?_, fun n => rfl, fun b => ?_, fun n d => rfl, rfl, rfl, rfl⟩
  · cases v with
    | pynone => exact absurd rfl hn
    | pydate iso => exact absurd hd (by simp [pyIsDate])
    | pystr s => exact absurd hf (by simp [hasFloatAttr])
    | pyint n => rfl
    | pybool b => cases b <;> rfl
    | pyfloat f => cases f <;> rfl
    | pydecimal n d => rfl
  · cases b <;> rfl

/-- `_clean` at the concrete ints and bools of a source row: `7` becomes
the float `7.0` and `True` becomes `1.0`. -/
theorem C10_clean_floats_witness :
    pyClean (PyVal.pyint 7) =
      (match pyFloatAttr (PyVal.pyint 7) with
        | PyFloat.finite n d => PyVal.pyfloat (PyFloat.finite n d)
        | _ => PyVal.pynone) :=
  C10_clean_floats.1 (PyVal.pyint 7) (by decide) rfl rfl

/-! ## C4 — the lookup-table classification -/

/-- **C4 (amended).** The lookup test passes exactly when the row count is
*unset or at most 1000* (not "strictly less than 1000": the source guard is
`if self.row_count and self.row_count > 1000: return False`, so an unset
count and a count of exactly 1000 both qualify), at least 2 indicator
column names are present, and no foreign key references a different table;
`classify_table_type` returns `LOOKUP` exactly when the table is not a
spatial-catalog table, is not a junction table, and passes the lookup
test. -/
theorem C4_lookup_amended (t : Table) :
    (t.is_lookup_table = true ↔
      ((∀ n, t.row_count = some n → n ≤ 1000) ∧
        2 ≤ t.lookupIndicatorCount ∧
        ∀ fk ∈ t.foreign_keys, fk.referenced_table = t.name)) ∧
    (t.classify_table_type = TableType.LOOKUP ↔
      (t.isSpatialCatalog = false ∧ t.is_junction_table = false ∧
        t.is_lookup_table = true)) := by
  constructor
  · rw [Table.is_lookup_table]
    rcases h : t.row_count with _ | n
    · simp [h, List.any_eq_true]
    · simp only [h]
      by_cases hgt : n > 1000
      · rw [if_pos (by simp; omega)]
        simp only [Bool.false_eq_true, false_iff]
        rintro ⟨hle, -⟩
        exact absurd (hle n rfl) (by omega)
      · rw [if_neg (by simp; omega)]
        simp [List.any_eq_true]
        intro _ _
        omega
  · rw [Table.classify_table_type]
    by_cases hs : t.isSpatialCatalog
    · simp [hs]
    · by_cases hj : t.is_junction_table
      · simp [hs, hj]
      · by_cases hl : t.is_lookup_table
        · simp [hs, hj, hl]
        · simp [hs, hj, hl]

/-- A lookup-shaped table with row count exactly 1000, and one with the
row count unset, are both classified `LOOKUP` — refuting the "strictly
less than 1000, and never when unset" reading of the claim. -/
theorem C4_lookup_counterexample :
    cexTableRc1000.row_count = some 1000 ∧
    cexTableRc1000.classify_table_type = TableType.LOOKUP ∧
    cexTableRcUnset.row_count = none ∧
    cexTableRcUnset.classify_table_type = TableType.LOOKUP := by
  refine ⟨rfl, by decide, rfl, by decide⟩

/-! ## C5 — the junction-table classification -/

/-- **C5 (amended).** A non-spatial-catalog table with exactly 2 foreign
keys, a 2-column primary key whose column set equals the FK column set,
and at most 2 columns outside the primary key classifies as `JUNCTION`.
With the PK-equality condition violated it never classifies as `JUNCTION`,
and it classifies as `ENTITY` *unless* it passes the lookup test (which is
possible, e.g. with two self-referencing FKs and indicator column names —
then it classifies as `LOOKUP`, not `ENTITY`). -/
theorem C5_junction_amended :
    (∀ (t : Table) (pk : PrimaryKey),
      t.isSpatialCatalog = false →
      t.foreign_keys.length = 2 →
      t.primary_key = some pk →
      pk.columns.length = 2 →
      listSetEq (t.foreign_keys.map (·.column)) pk.columns = true →
      (t.columns.filter (fun c => ¬ pk.columns.contains c.name)).length ≤ 2 →
      t.classify_table_type = TableType.JUNCTION) ∧
    (∀ t : Table,
      t.isSpatialCatalog = false →
      (∀ pk, t.primary_key = some pk →
        listSetEq (t.foreign_keys.map (·.column)) pk.columns = false) →
      t.classify_table_type ≠ TableType.JUNCTION ∧
      (t.is_lookup_table = false → t.classify_table_type = TableType.ENTITY)) := by
  constructor
  · intro t pk hs hfk hpk hpkl hset hextra
    have hj : t.is_junction_table = true := by
      simp only [Table.is_junction_table, hfk, hpk, hpkl, hset]
      simp
      simpa using hextra
    rw [Table.classify_table_type, if_neg (by simp [hs]), if_pos hj]
  · intro t hs hnset
    have hj : t.is_junction_table = false := by
      rw [Table.is_junction_table]
      by_cases h2 : t.foreign_keys.length = 2
      · rw [if_neg (by simp [h2])]
        rcases hpk : t.primary_key with _ | pk
        · rfl
        · by_cases hpl : pk.columns.length = 2
          · have hset := hnset pk hpk
            simp [hpl, hset]
          · simp [hpl]
      · rw [if_pos (by simp [h2])]
    constructor
    · rw [Table.classify_table_type, if_neg (by simp [hs]), if_neg (by simp [hj])]
      by_cases hl : t.is_lookup_table <;> simp [hl]
    · intro hl
      rw [Table.classify_table_type, if_neg (by simp [hs]), if_neg (by simp [hj]),
        if_neg (by simp [hl])]

/-- A non-catalog table with 2 (self-referencing) foreign keys whose
primary-key columns differ from the FK columns is classified `LOOKUP`, not
`ENTITY` — refuting the claim's second half as stated. -/
theorem C5_junction_counterexample :
    cexSelfFkTable.isSpatialCatalog = false ∧
    cexSelfFkTable.foreign_keys.length = 2 ∧
    cexSelfFkTable.primary_key = some { name := "pk", columns := ["code", "name"] } ∧
    listSetEq (cexSelfFkTable.foreign_keys.map (·.column)) ["code", "name"] = false ∧
    cexSelfFkTable.classify_table_type = TableType.LOOKUP ∧
    cexSelfFkTable.classify_table_type ≠ TableType.ENTITY := by
  refine ⟨rfl, rfl, rfl, by decide, by decide, by decide⟩

/-- The textbook junction table classifies as `JUNCTION`. -/
theorem C5_junction_witness :
    cexJunctionTable.classify_table_type = TableType.JUNCTION :=
  C5_junction_amended.1 cexJunctionTable
    { name := "pk", columns := ["project_id", "tag_id"] }
    (by decide) (by decide) rfl (by decide) (by decide) (by decide)

/-! ## C3 — non-empty merge keys -/

/-- **C3 (amended).** Every `NodeType` the automatic path produces has a
non-empty merge-key list (`merge_keys = [primary_property]`); the
declarative path copies `merge_keys` verbatim from the document,
defaulting to the *empty* list when the key is absent, so a declaratively
loaded `NodeType` can have no merge key at all. -/
theorem C3_merge_keys_amended :
    (∀ (t : Table) (nt : NodeType),
      table_to_node_type t = Except.ok nt → nt.merge_keys ≠ []) ∧
    (∀ (cfg : NodeConfig) (nt : NodeType),
      parse_node_type cfg = Except.ok nt → nt.merge_keys = cfg.merge_keys.getD []) := by
  constructor
  · intro t nt h
    rw [table_to_node_type] at h
    rcases hd : detect_primary_property t with e | p
    all_goals rw [hd] at h
    · simp [bind, Except.bind] at h
    · simp only [bind, Except.bind] at h
      obtain rfl := Except.ok.inj h
      simp
  · intro cfg nt h
    rw [parse_node_type] at h
    rcases hm : List.mapM parse_property cfg.properties with e | props
    all_goals rw [hm] at h
    · simp [bind, Except.bind] at h
    · simp only [bind, Except.bind] at h
      obtain rfl := Except.ok.inj h
      rfl

/-- A document whose single node config omits `merge_keys` loads without
error to a schema whose only node has an *empty* merge-key list. -/
theorem C3_merge_keys_counterexample :
    (load_graph_schema cexDocNoMergeKeys).map (fun s => s.nodes.map (·.merge_keys)) =
      Except.ok [[]] := rfl

/-- The automatic path on a concrete table without a primary key yields a
node type with a non-empty merge-key list. -/
theorem C3_merge_keys_witness :
    ∃ nt, table_to_node_type witTableNoPk = Except.ok nt ∧ nt.merge_keys ≠ [] :=
  ⟨_, rfl, C3_merge_keys_amended.1 witTableNoPk _ rfl⟩

/-! ## C2 — when a missing variant-specific field is detected -/

/-- A relationship whose variant-specific field is missing (or empty, via
Python truthiness) makes `migrate_relationship` raise immediately. -/
theorem migrate_relationship_missing_field_errors
    (db : SqlDb) (schema : GraphSchema) (rel : RelationshipType) (st : GDB)
    (hbad : (rel.source_type = RelationshipSourceType.FOREIGN_KEY ∧
        (optTruthy rel.from_id_column = false ∨ optTruthy rel.to_id_column = false)) ∨
      (rel.source_type ≠ RelationshipSourceType.FOREIGN_KEY ∧
        optTruthy rel.computation_query = false)) :
    ∃ e, migrate_relationship db schema rel st = Except.error e := by
  rcases hbad with ⟨hfk, hmiss⟩ | ⟨hnfk, hq⟩
  · have hcond : ¬ optTruthy rel.from_id_column = true ∨
        ¬ optTruthy rel.to_id_column = true := by
      rcases hmiss with h | h
      · exact Or.inl (by simp [h])
      · exact Or.inr (by simp [h])
    exact ⟨_, by rw [migrate_relationship, if_pos hfk, migrateRelFk, if_pos hcond]⟩
  · exact ⟨_, by rw [migrate_relationship, if_neg hnfk, migrateRelComputed,
      if_pos (by simp [hq])]⟩

/-- The relationship phase aborts with an error whenever its list contains
a relationship with a missing variant-specific field. -/
theorem relPhase_errors_of_bad_rel (db : SqlDb) (schema : GraphSchema)
    (rel : RelationshipType)
    (hbad : (rel.source_type = RelationshipSourceType.FOREIGN_KEY ∧
        (optTruthy rel.from_id_column = false ∨ optTruthy rel.to_id_column = false)) ∨
      (rel.source_type ≠ RelationshipSourceType.FOREIGN_KEY ∧
        optTruthy rel.computation_query = false)) :
    ∀ (rels : List RelationshipType), rel ∈ rels → ∀ st : GDB,
      ∃ e log, relPhase db schema rels st = (log, Except.error e) := by
  intro rels
  induction rels with
  | nil => intro hmem; cases hmem
  | cons r rest ih =>
    intro hmem st
    rcases List.mem_cons.mp hmem with rfl | htail
    · obtain ⟨e, he⟩ := migrate_relationship_missing_field_errors db schema rel st hbad
      exact ⟨e, [], by simp [relPhase, he]⟩
    · rcases hr : migrate_relationship db schema r st with e | p
      · exact ⟨e, [], by simp [relPhase, hr]⟩
      · obtain ⟨e, log, hrec⟩ := ih htail p.1
        refine ⟨e, MigStep.relStep r.type :: log, ?_⟩
        simp [relPhase, hr, hrec]

/-- **C2 (amended).** A schema containing a relationship that misses its
required variant-specific field (a `foreign_key` relationship without a
truthy `from_id_column` or `to_id_column`, or a computed/spatial
relationship without a truthy `computation_query`) makes `migrate_all`
abort with an error — but only when that relationship's own migration step
runs, *after* `setup_schema` (which is always in the executed trace) and
after the node phase; the declarative loader itself accepts the document
without complaint. -/
theorem C2_missing_field_fails_at_rel_step :
    ∀ (db : SqlDb) (schema : GraphSchema) (st : GDB) (rel : RelationshipType),
      rel ∈ schema.relationships →
      ((rel.source_type = RelationshipSourceType.FOREIGN_KEY ∧
          (optTruthy rel.from_id_column = false ∨ optTruthy rel.to_id_column = false)) ∨
        (rel.source_type ≠ RelationshipSourceType.FOREIGN_KEY ∧
          optTruthy rel.computation_query = false)) →
      (∃ e, (migrate_all db schema false st).2 = Except.error e) ∧
      MigStep.setupStep ∈ (migrate_all db schema false st).1 := by
  intro db schema st rel hmem hbad
  rcases hnp : nodePhase db schema.nodes st with ⟨lognp, res⟩
  rcases res with e | p
  · constructor
    · exact ⟨e, by simp [migrate_all, hnp]⟩
    · simp [migrate_all, hnp]
  · obtain ⟨e, log, hrel⟩ := relPhase_errors_of_bad_rel db schema rel hbad
      schema.relationships hmem p.1
    constructor
    · exact ⟨e, by simp [migrate_all, hnp, hrel]⟩
    · simp [migrate_all, hnp, hrel]

/-- The pipeline on a document whose FK relationship omits `to_id_column`:
the document loads successfully, and the run executes `setup_schema` and
the full `Project` node step — migration work that the claim says must
never start — before aborting at the relationship step. -/
theorem C2_missing_field_counterexample :
    load_graph_schema cexDocC2 = Except.ok cexSchemaC2 ∧
    (migrate_all cexDbC2 cexSchemaC2 false ⟨[], [], 0⟩).1 =
      [MigStep.setupStep, MigStep.nodeStep "Project"] ∧
    (∃ e, (migrate_all cexDbC2 cexSchemaC2 false ⟨[], [], 0⟩).2 = Except.error e) :=
  ⟨rfl, rfl, ⟨_, rfl⟩⟩

/-- The amended claim at the concrete document of the counterexample. -/
theorem C2_missing_field_witness :
    (∃ e, (migrate_all cexDbC2 cexSchemaC2 false ⟨[], [], 0⟩).2 = Except.error e) ∧
    MigStep.setupStep ∈ (migrate_all cexDbC2 cexSchemaC2 false ⟨[], [], 0⟩).1 :=
  C2_missing_field_fails_at_rel_step cexDbC2 cexSchemaC2 ⟨[], [], 0⟩ cexRelC2
    (by simp [cexSchemaC2]) (Or.inl ⟨rfl, Or.inr rfl⟩)


/-! ## Property-map lemmas

Closed forms for `lookupProp` over `insertProp` / `removeProp` /
`updateProps`, and key-uniqueness preservation of `_row_to_props`. -/


theorem lookupProp_cons (a : String × PyVal) (rest : PropRow) (k : String) :
    lookupProp (a :: rest) k = if a.1 = k then some a.2 else lookupProp rest k := by
  simp only [lookupProp, beq_iff_eq]

theorem lookupProp_append (m m2 : PropRow) (k : String) :
    lookupProp (m ++ m2) k =
      (match lookupProp m k with
        | some v => some v
        | none => lookupProp m2 k) := by
  induction m with
  | nil => rfl
  | cons a rest ih =>
    by_cases ha : a.1 = k
    · simp [lookupProp_cons, ha]
    · simp only [List.cons_append, lookupProp_cons, if_neg ha]
      exact ih

theorem lookupProp_map_replace (m : PropRow) (k : String) (v : PyVal)
    (hc : containsKey m k = true) :
    lookupProp (m.map (fun kv => if kv.1 == k then (k, v) else kv)) k = some v := by
  induction m with
  | nil => cases hc
  | cons a rest ih =>
    rw [List.map_cons]
    by_cases ha : a.1 = k
    · have hhead : (if a.1 == k then (k, v) else a) = (k, v) := by simp [ha]
      rw [hhead, lookupProp_cons, if_pos rfl]
    · have hhead : (if a.1 == k then (k, v) else a) = a := by simp [ha]
      rw [hhead, lookupProp_cons, if_neg ha]
      simp only [containsKey, List.any_cons, Bool.or_eq_true, beq_iff_eq] at hc
      rcases hc with h | h
      · exact absurd h ha
      · exact ih (by simpa [containsKey] using h)

theorem lookupProp_map_replace_ne (m : PropRow) (k k' : String) (v : PyVal)
    (hne : k' ≠ k) :
    lookupProp (m.map (fun kv => if kv.1 == k then (k, v) else kv)) k' =
      lookupProp m k' := by
  induction m with
  | nil => rfl
  | cons a rest ih =>
    rw [List.map_cons]
    by_cases ha : a.1 = k
    · have hhead : (if a.1 == k then (k, v) else a) = (k, v) := by simp [ha]
      rw [hhead, lookupProp_cons, lookupProp_cons,
        if_neg (Ne.symm hne), if_neg (ha ▸ Ne.symm hne : ¬ a.1 = k')]
      exact ih
    · have hhead : (if a.1 == k then (k, v) else a) = a := by simp [ha]
      rw [hhead, lookupProp_cons, lookupProp_cons]
      by_cases hak : a.1 = k'
      · rw [if_pos hak, if_pos hak]
      · rw [if_neg hak, if_neg hak]
        exact ih

theorem lookupProp_none_of_not_contains (m : PropRow) (k : String)
    (hc : ¬ containsKey m k = true) : lookupProp m k = none := by
  induction m with
  | nil => rfl
  | cons a rest ih =>
    simp only [containsKey, List.any_cons, Bool.or_eq_true, beq_iff_eq, not_or] at hc
    rw [lookupProp_cons, if_neg hc.1]
    exact ih (by simpa [containsKey] using hc.2)

theorem lookupProp_insert_self (m : PropRow) (k : String) (v : PyVal) :
    lookupProp (insertProp m k v) k = some v := by
  rw [insertProp]
  by_cases hc : containsKey m k
  · rw [if_pos hc]
    exact lookupProp_map_replace m k v hc
  · rw [if_neg hc, lookupProp_append, lookupProp_none_of_not_contains m k hc]
    simp [lookupProp_cons]

theorem lookupProp_insert_ne (m : PropRow) (k k' : String) (v : PyVal)
    (hne : k' ≠ k) : lookupProp (insertProp m k v) k' = lookupProp m k' := by
  rw [insertProp]
  by_cases hc : containsKey m k
  · rw [if_pos hc]
    exact lookupProp_map_replace_ne m k k' v hne
  · rw [if_neg hc, lookupProp_append]
    rcases h : lookupProp m k' with _ | w
    · simp [lookupProp_cons, lookupProp, Ne.symm hne]
    · rfl

theorem lookupProp_remove_self (m : PropRow) (k : String) :
    lookupProp (removeProp m k) k = none := by
  induction m with
  | nil => rfl
  | cons a rest ih =>
    rw [removeProp, List.filter_cons]
    by_cases ha : a.1 = k
    · rw [if_neg (by simp [ha])]
      simpa [removeProp] using ih
    · rw [if_pos (by simp [ha])]
      rw [lookupProp_cons, if_neg ha]
      simpa [removeProp] using ih

theorem lookupProp_remove_ne (m : PropRow) (k k' : String) (hne : k' ≠ k) :
    lookupProp (removeProp m k) k' = lookupProp m k' := by
  induction m with
  | nil => rfl
  | cons a rest ih =>
    rw [removeProp, List.filter_cons]
    by_cases ha : a.1 = k
    · rw [if_neg (by simp [ha])]
      rw [lookupProp_cons, if_neg (ha ▸ Ne.symm hne : ¬ a.1 = k')]
      simpa [removeProp] using ih
    · rw [if_pos (by simp [ha])]
      rw [lookupProp_cons, lookupProp_cons]
      by_cases hak : a.1 = k'
      · rw [if_pos hak, if_pos hak]
      · rw [if_neg hak, if_neg hak]
        simpa [removeProp] using ih

theorem lookupProp_eq_none_of_not_mem (row : PropRow) (k : String)
    (h : k ∉ row.map Prod.fst) : lookupProp row k = none := by
  induction row with
  | nil => rfl
  | cons a rest ih =>
    simp only [List.map_cons, List.mem_cons, not_or] at h
    rw [lookupProp_cons, if_neg (fun hh => h.1 hh.symm)]
    exact ih h.2

theorem lookupProp_updateProps (row : PropRow) (hnd : (row.map Prod.fst).Nodup) :
    ∀ (p : PropRow) (k : String),
      lookupProp (updateProps p row) k =
        (match lookupProp row k with
          | some v => if v = PyVal.pynone then none else some v
          | none => lookupProp p k) := by
  induction row with
  | nil => intro p k; rfl
  | cons a rest ih =>
    intro p k
    simp only [List.map_cons, List.nodup_cons] at hnd
    have step : updateProps p (a :: rest) = updateProps
        (if a.2 = PyVal.pynone then removeProp p a.1 else insertProp p a.1 a.2)
        rest := rfl
    rw [step, ih hnd.2]
    by_cases hk : a.1 = k
    · subst hk
      have hrest : lookupProp rest a.1 = none :=
        lookupProp_eq_none_of_not_mem rest a.1 hnd.1
      by_cases hnull : a.2 = PyVal.pynone
      · simp [hrest, lookupProp_cons, hnull, lookupProp_remove_self]
      · simp [hrest, lookupProp_cons, hnull, lookupProp_insert_self]
    · by_cases hnull : a.2 = PyVal.pynone
      · simp [lookupProp_cons, hk, hnull,
          lookupProp_remove_ne p a.1 k (fun hh => hk hh.symm)]
      · simp [lookupProp_cons, hk, hnull,
          lookupProp_insert_ne p a.1 k a.2 (fun hh => hk hh.symm)]

theorem rowToProps_keys_sublist (row : PropRow) (ex : List String) :
    ((rowToProps row ex).map Prod.fst).Sublist (row.map Prod.fst) := by
  induction row with
  | nil => exact List.Sublist.refl _
  | cons a rest ih =>
    rw [rowToProps, List.filterMap_cons]
    by_cases hc : ¬ ex.contains a.1 ∧ pyClean a.2 ≠ PyVal.pynone
    · rw [if_pos hc]
      simp only [List.map_cons]
      exact List.Sublist.cons₂ _ (by simpa [rowToProps] using ih)
    · rw [if_neg hc]
      exact List.Sublist.cons _ (by simpa [rowToProps] using ih)

theorem rowToProps_keys_nodup (row : PropRow) (ex : List String)
    (h : (row.map Prod.fst).Nodup) : ((rowToProps row ex).map Prod.fst).Nodup :=
  (rowToProps_keys_sublist row ex).nodup h


/-! ## Merge-key and node-merge lemmas

What `rowKvs` guarantees on success, how one `MERGE` row transforms the
store, and that a "some node matches this merge-key pattern" fact is
established by the row's own merge and survives every later node merge of
the same schema (the labels being unique, an update through another node
type cannot disturb a label's merge-key values). -/


theorem rowKvs_ok_spec :
    ∀ (keys : List String) (row : PropRow) (kvs : List (String × PyVal)),
      rowKvs keys row = Except.ok kvs →
      kvs.map Prod.fst = keys ∧
        ∀ kv ∈ kvs, lookupProp row kv.1 = some kv.2 ∧ kv.2 ≠ PyVal.pynone := by
  intro keys
  induction keys with
  | nil =>
    intro row kvs h
    rw [rowKvs] at h
    obtain rfl := Except.ok.inj h
    exact ⟨rfl, by intro kv hkv; cases hkv⟩
  | cons k ks ih =>
    intro row kvs h
    rw [rowKvs] at h
    rcases hlk : lookupProp row k with _ | v
    all_goals rw [hlk] at h
    all_goals dsimp only at h
    · cases h
    · by_cases hnull : v = PyVal.pynone
      · rw [if_pos hnull] at h; cases h
      · rw [if_neg hnull] at h
        rcases hrec : rowKvs ks row with e | kvs'
        all_goals rw [hrec] at h
        all_goals dsimp only at h
        · cases h
        · obtain rfl := Except.ok.inj h
          obtain ⟨hkeys, hvals⟩ := ih row kvs' hrec
          refine ⟨by simp [hkeys], ?_⟩
          intro kv hkv
          rcases List.mem_cons.mp hkv with rfl | htail
          · exact ⟨hlk, hnull⟩
          · exact hvals kv htail

theorem nodeMatches_update_self (n : GNode) (label : String)
    (kvs : List (String × PyVal)) (row : PropRow)
    (hnd : (row.map Prod.fst).Nodup)
    (hkv : ∀ kv ∈ kvs, lookupProp row kv.1 = some kv.2 ∧ kv.2 ≠ PyVal.pynone)
    (hm : nodeMatches n label kvs = true) :
    nodeMatches { n with props := updateProps n.props row } label kvs = true := by
  rw [nodeMatches] at hm ⊢
  simp only [Bool.and_eq_true, List.all_eq_true] at hm ⊢
  refine ⟨hm.1, ?_⟩
  intro kv hkvmem
  obtain ⟨hlk, hnn⟩ := hkv kv hkvmem
  rw [lookupProp_updateProps row hnd n.props kv.1, hlk]
  simp [hnn]

theorem nodeMatches_created (nid : Nat) (label : String)
    (kvs : List (String × PyVal)) (row : PropRow)
    (hnd : (row.map Prod.fst).Nodup)
    (hkv : ∀ kv ∈ kvs, lookupProp row kv.1 = some kv.2 ∧ kv.2 ≠ PyVal.pynone) :
    nodeMatches { id := nid, label := label, props := updateProps kvs row }
      label kvs = true := by
  rw [nodeMatches]
  simp only [Bool.and_eq_true, List.all_eq_true]
  refine ⟨by simp, ?_⟩
  intro kv hkvmem
  obtain ⟨hlk, hnn⟩ := hkv kv hkvmem
  rw [lookupProp_updateProps row hnd kvs kv.1, hlk]
  simp [hnn]

theorem mergeNodeRow_ok_elim (label : String) (keys : List String)
    (row : PropRow) (st st' : GDB)
    (h : mergeNodeRow label keys row st = Except.ok st') :
    ∃ kvs, rowKvs keys row = Except.ok kvs ∧
      ((st.nodes.any (fun n => nodeMatches n label kvs) = true ∧
        st' = { st with nodes := st.nodes.map (fun n =>
          if nodeMatches n label kvs then
            { n with props := updateProps n.props row } else n) }) ∨
       (st.nodes.any (fun n => nodeMatches n label kvs) = false ∧
        st' = { st with
          nodes := st.nodes ++
            [{ id := st.nextId, label := label, props := updateProps kvs row }]
          nextId := st.nextId + 1 })) := by
  rw [mergeNodeRow] at h
  rcases hkv : rowKvs keys row with e | kvs
  all_goals rw [hkv] at h
  all_goals dsimp only at h
  · cases h
  · refine ⟨kvs, rfl, ?_⟩
    by_cases hany : st.nodes.any (fun n => nodeMatches n label kvs) = true
    · rw [if_pos hany] at h
      exact Or.inl ⟨hany, (Except.ok.inj h).symm⟩
    · rw [if_neg hany] at h
      exact Or.inr ⟨Bool.eq_false_iff.mpr hany, (Except.ok.inj h).symm⟩

theorem mergeNodeRow_rels (label : String) (keys : List String)
    (row : PropRow) (st st' : GDB)
    (h : mergeNodeRow label keys row st = Except.ok st') : st'.rels = st.rels := by
  obtain ⟨kvs, -, hc | hc⟩ := mergeNodeRow_ok_elim label keys row st st' h
  · rw [hc.2]
  · rw [hc.2]

theorem mergeNodeRow_establishes (label : String) (keys : List String)
    (row : PropRow) (st st' : GDB)
    (hnd : (row.map Prod.fst).Nodup)
    (h : mergeNodeRow label keys row st = Except.ok st') :
    ∀ kvs, rowKvs keys row = Except.ok kvs → MatchFact label kvs st' := by
  intro kvs hkv
  obtain ⟨kvs', hkv', hc | hc⟩ := mergeNodeRow_ok_elim label keys row st st' h
  all_goals rw [hkv] at hkv'
  all_goals obtain rfl := Except.ok.inj hkv'
  · obtain ⟨n, hn, hmatch⟩ := List.any_eq_true.mp hc.1
    refine ⟨{ n with props := updateProps n.props row }, ?_, ?_⟩
    · rw [hc.2]
      have : (fun n => if nodeMatches n label kvs then
          { n with props := updateProps n.props row } else n) n =
          { n with props := updateProps n.props row } := by simp [hmatch]
      exact this ▸ List.mem_map_of_mem _ hn
    · exact nodeMatches_update_self n label kvs row hnd
        (rowKvs_ok_spec keys row kvs hkv).2 hmatch
  · refine ⟨_, ?_, nodeMatches_created st.nextId label kvs row hnd
      (rowKvs_ok_spec keys row kvs hkv).2⟩
    rw [hc.2]
    exact List.mem_append_right _ (List.mem_singleton.mpr rfl)

theorem node_label_inj (schema : GraphSchema)
    (huniq : (schema.nodes.map (·.label)).Nodup)
    {N N' : NodeType} (hN : N ∈ schema.nodes) (hN' : N' ∈ schema.nodes)
    (heq : N.label = N'.label) : N = N' :=
  List.inj_on_of_nodup_map huniq hN hN' heq

theorem mergeNodeRow_preserves_matchFact (schema : GraphSchema)
    (huniq : (schema.nodes.map (·.label)).Nodup)
    (N N' : NodeType) (hN : N ∈ schema.nodes) (hN' : N' ∈ schema.nodes)
    (kvs : List (String × PyVal)) (hkeys : kvs.map Prod.fst = N.merge_keys)
    (row : PropRow) (hnd : (row.map Prod.fst).Nodup)
    (st st' : GDB) (h : mergeNodeRow N'.label N'.merge_keys row st = Except.ok st')
    (hfact : MatchFact N.label kvs st) : MatchFact N.label kvs st' := by
  obtain ⟨kvs', hkv', hc | hc⟩ := mergeNodeRow_ok_elim _ _ row st st' h
  · obtain ⟨n, hn, hmatch⟩ := hfact
    by_cases hm' : nodeMatches n N'.label kvs' = true
    · -- the witness node is updated; its merge-key values are re-written
      -- with the same values, so the match survives
      have hmatchS := hmatch
      have hmS := hm'
      rw [nodeMatches] at hmatchS hmS
      simp only [Bool.and_eq_true, List.all_eq_true, beq_iff_eq] at hmatchS hmS
      have hNN' : N = N' := node_label_inj schema huniq hN hN'
        (by rw [← hmatchS.1, hmS.1])
      obtain ⟨hkeys', hvals'⟩ := rowKvs_ok_spec _ row kvs' hkv'
      refine ⟨{ n with props := updateProps n.props row }, ?_, ?_⟩
      · rw [hc.2]
        have : (fun n => if nodeMatches n N'.label kvs' then
            { n with props := updateProps n.props row } else n) n =
            { n with props := updateProps n.props row } := by simp [hm']
        exact this ▸ List.mem_map_of_mem _ hn
      · rw [nodeMatches]
        simp only [Bool.and_eq_true, List.all_eq_true, beq_iff_eq]
        refine ⟨by simpa using hmatchS.1, ?_⟩
        intro kv hkvmem
        -- kv.1 is one of N's merge keys, hence appears in kvs' as well
        have hk_in : kv.1 ∈ kvs'.map Prod.fst := by
          rw [hkeys', ← hNN', ← hkeys]
          exact List.mem_map_of_mem _ hkvmem
        obtain ⟨kv', hkv'mem, hkeq⟩ := List.mem_map.mp hk_in
        obtain ⟨hlk', hnn'⟩ := hvals' kv' hkv'mem
        -- the node's current value at kv.1 agrees with both kvs and kvs'
        have hval_n : lookupProp n.props kv.1 = some kv.2 := hmatchS.2 kv hkvmem
        have hval_n' : lookupProp n.props kv'.1 = some kv'.2 := hmS.2 kv' hkv'mem
        have hveq : kv'.2 = kv.2 := by
          rw [hkeq] at hval_n'
          rw [hval_n'] at hval_n
          exact Option.some.inj hval_n
        rw [lookupProp_updateProps row hnd n.props kv.1, ← hkeq, hlk']
        rw [hveq]
        simp [hveq ▸ hnn']
    · refine ⟨n, ?_, hmatch⟩
      rw [hc.2]
      have : (fun n => if nodeMatches n N'.label kvs' then
          { n with props := updateProps n.props row } else n) n = n := by
        simp [hm']
      exact this ▸ List.mem_map_of_mem _ hn
  · obtain ⟨n, hn, hmatch⟩ := hfact
    refine ⟨n, ?_, hmatch⟩
    rw [hc.2]
    exact List.mem_append_left _ hn


/-! ## Run-1 node-phase postconditions

After a successful node phase: relationships are untouched, match facts
survive, every processed row's merge-key pattern has a matching node, and
every processed row extracts its merge-key values without error. -/


theorem nodeRowsOf_nodup (db : SqlDb) (hdb : RowKeysNodup db) (node : NodeType) :
    ∀ r ∈ nodeRowsOf db node, (r.map Prod.fst).Nodup := by
  intro r hr
  obtain ⟨r0, hr0, rfl⟩ := List.mem_map.mp hr
  exact rowToProps_keys_nodup r0 [] (hdb _ r0 hr0)

theorem mergeRows_valid (label : String) (keys : List String) :
    ∀ (rows : List PropRow) (st st' : GDB),
      mergeRows label keys rows st = Except.ok st' →
      ∀ row ∈ rows, ∃ kvs, rowKvs keys row = Except.ok kvs := by
  intro rows
  induction rows with
  | nil => intro st st' _ row hrow; cases hrow
  | cons r rest ih =>
    intro st st' h row hrow
    rw [mergeRows] at h
    rcases hmr : mergeNodeRow label keys r st with e | st1
    all_goals rw [hmr] at h
    · cases h
    · rcases List.mem_cons.mp hrow with rfl | htail
      · obtain ⟨kvs, hkvs, -⟩ := mergeNodeRow_ok_elim label keys row st st1 hmr
        exact ⟨kvs, hkvs⟩
      · exact ih st1 st' h row htail

theorem mergeRows_facts (schema : GraphSchema)
    (huniq : (schema.nodes.map (·.label)).Nodup)
    (N : NodeType) (hN : N ∈ schema.nodes) :
    ∀ (rows : List PropRow) (st st' : GDB),
      (∀ r ∈ rows, (r.map Prod.fst).Nodup) →
      mergeRows N.label N.merge_keys rows st = Except.ok st' →
      st'.rels = st.rels ∧
      (∀ (M : NodeType) (kvs : List (String × PyVal)), M ∈ schema.nodes →
        kvs.map Prod.fst = M.merge_keys →
        MatchFact M.label kvs st → MatchFact M.label kvs st') ∧
      (∀ row ∈ rows, ∀ kvs, rowKvs N.merge_keys row = Except.ok kvs →
        MatchFact N.label kvs st') := by
  intro rows
  induction rows with
  | nil =>
    intro st st' _ h
    rw [mergeRows] at h
    obtain rfl := Except.ok.inj h
    exact ⟨rfl, fun _ _ _ _ hf => hf, fun row hrow => absurd hrow (List.not_mem_nil row)⟩
  | cons r rest ih =>
    intro st st' hnd h
    rw [mergeRows] at h
    rcases hmr : mergeNodeRow N.label N.merge_keys r st with e | st1
    all_goals rw [hmr] at h
    · cases h
    · have hndr : (r.map Prod.fst).Nodup := hnd r (List.mem_cons_self r rest)
      have hndrest : ∀ r' ∈ rest, (r'.map Prod.fst).Nodup :=
        fun r' hr' => hnd r' (List.mem_cons_of_mem r hr')
      obtain ⟨hrels, hpres, hfacts⟩ := ih st1 st' hndrest h
      refine ⟨hrels.trans (mergeNodeRow_rels _ _ r st st1 hmr), ?_, ?_⟩
      · intro M kvs hM hkeys hf
        exact hpres M kvs hM hkeys
          (mergeNodeRow_preserves_matchFact schema huniq M N hM hN kvs hkeys
            r hndr st st1 hmr hf)
      · intro row hrow kvs hkvs
        rcases List.mem_cons.mp hrow with rfl | htail
        · have hest := mergeNodeRow_establishes N.label N.merge_keys row st st1
            hndr hmr kvs hkvs
          exact hpres N kvs hN (rowKvs_ok_spec _ _ _ hkvs).1 hest
        · exact hfacts row htail kvs hkvs

theorem migrate_node_ok_elim (db : SqlDb) (N : NodeType) (st : GDB)
    (st'' : GDB) (c : Nat) (h : migrate_node db N st = Except.ok (st'', c)) :
    mergeRows N.label N.merge_keys (nodeRowsOf db N) st = Except.ok st'' := by
  rw [migrate_node] at h
  rcases hmr : mergeRows N.label N.merge_keys (nodeRowsOf db N) st with e | s
  all_goals rw [hmr] at h
  all_goals dsimp only at h
  · cases h
  · have h2 := Except.ok.inj h
    injection h2 with hs hc
    exact congrArg Except.ok hs

theorem nodePhase_facts (db : SqlDb) (hdb : RowKeysNodup db)
    (schema : GraphSchema) (huniq : (schema.nodes.map (·.label)).Nodup) :
    ∀ (ns : List NodeType), (∀ N ∈ ns, N ∈ schema.nodes) →
    ∀ (st : GDB) (log : List MigStep) (st1 : GDB) (cs : List (String × Nat)),
      nodePhase db ns st = (log, Except.ok (st1, cs)) →
      st1.rels = st.rels ∧
      (∀ (M : NodeType) (kvs : List (String × PyVal)), M ∈ schema.nodes →
        kvs.map Prod.fst = M.merge_keys →
        MatchFact M.label kvs st → MatchFact M.label kvs st1) ∧
      (∀ N ∈ ns, ∀ row ∈ nodeRowsOf db N, ∀ kvs,
        rowKvs N.merge_keys row = Except.ok kvs → MatchFact N.label kvs st1) ∧
      (∀ N ∈ ns, ∀ row ∈ nodeRowsOf db N, ∃ kvs,
        rowKvs N.merge_keys row = Except.ok kvs) := by
  intro ns
  induction ns with
  | nil =>
    intro _ st log st1 cs h
    rw [nodePhase] at h
    injection h with h1 h2
    injection h2 with h3
    injection h3 with h4 h5
    subst h4
    exact ⟨rfl, fun _ _ _ _ hf => hf,
      fun N hN => absurd hN (List.not_mem_nil N),
      fun N hN => absurd hN (List.not_mem_nil N)⟩
  | cons N ns' ih =>
    intro hsub st log st1 cs h
    have hNin : N ∈ schema.nodes := hsub N (List.mem_cons_self N ns')
    have hsub' : ∀ M ∈ ns', M ∈ schema.nodes :=
      fun M hM => hsub M (List.mem_cons_of_mem N hM)
    rw [nodePhase] at h
    rcases hmn : migrate_node db N st with e | ⟨stm, c⟩
    all_goals rw [hmn] at h
    all_goals dsimp only at h
    · injection h with h1 h2
      cases h2
    · rcases hnext : nodePhase db ns' stm with ⟨log', res'⟩
      rw [hnext] at h
      dsimp only at h
      rcases res' with e | ⟨stq, csq⟩
      · injection h with h1 h2
        cases h2
      · injection h with h1 h2
        injection h2 with h3
        injection h3 with h4 h5
        have hmr := migrate_node_ok_elim db N st stm c hmn
        obtain ⟨hrels1, hpres1, hfacts1⟩ := mergeRows_facts schema huniq N hNin
          (nodeRowsOf db N) st stm (nodeRowsOf_nodup db hdb N) hmr
        obtain ⟨hrels2, hpres2, hfacts2, hvalid2⟩ :=
          ih hsub' stm log' stq csq hnext
        rw [h4] at hrels2 hpres2 hfacts2
        refine ⟨hrels2.trans hrels1, ?_, ?_, ?_⟩
        · intro M kvs hM hkeys hf
          exact hpres2 M kvs hM hkeys (hpres1 M kvs hM hkeys hf)
        · intro M hM row hrow kvs hkvs
          rcases List.mem_cons.mp hM with rfl | htail
          · exact hpres2 M kvs hNin (rowKvs_ok_spec _ _ _ hkvs).1
              (hfacts1 row hrow kvs hkvs)
          · exact hfacts2 M htail row hrow kvs hkvs
        · intro M hM row hrow
          rcases List.mem_cons.mp hM with rfl | htail
          · exact mergeRows_valid M.label M.merge_keys (nodeRowsOf db M) st stm
              hmr row hrow
          · exact hvalid2 M htail row hrow


/-! ## Run-1 relationship-phase postconditions

Each relationship step leaves nodes untouched, only adds or re-`SET`s
edges, and establishes its `relDone` postcondition; the postconditions
survive to the end of the phase, and a step that succeeded once succeeds
from any store state (its guards and source reads do not depend on the
store). -/


theorem hasEdge_append_one (st : GDB) (r : GRel) (t : String) (a b : Nat) :
    hasEdge { st with rels := st.rels ++ [r] } t a b =
      (hasEdge st t a b || edgeIs r t a b) := by
  rw [hasEdge, hasEdge]
  simp [List.any_append]

theorem addEdgeIfAbsent_nodes (typ : String) (a b : Nat) (st : GDB) :
    (addEdgeIfAbsent typ a b st).1.nodes = st.nodes := by
  rw [addEdgeIfAbsent]
  by_cases hc : hasEdge st typ a b = true
  · rw [if_pos hc]
  · rw [if_neg hc]

theorem addEdgeIfAbsent_mono (typ : String) (a b : Nat) (st : GDB)
    (t : String) (x y : Nat) (h : hasEdge st t x y = true) :
    hasEdge (addEdgeIfAbsent typ a b st).1 t x y = true := by
  rw [addEdgeIfAbsent]
  by_cases hc : hasEdge st typ a b = true
  · rw [if_pos hc]; exact h
  · rw [if_neg hc]
    dsimp only
    rw [hasEdge_append_one, h, Bool.true_or]

theorem addEdgeIfAbsent_ensures (typ : String) (a b : Nat) (st : GDB) :
    hasEdge (addEdgeIfAbsent typ a b st).1 typ a b = true := by
  rw [addEdgeIfAbsent]
  by_cases hc : hasEdge st typ a b = true
  · rw [if_pos hc]; exact hc
  · rw [if_neg hc]
    dsimp only
    rw [hasEdge_append_one]
    simp [edgeIs]

theorem hasEdge_map_props (st : GDB) (f : GRel → GRel)
    (hf : ∀ r, relProj (f r) = relProj r) (t : String) (a b : Nat) :
    hasEdge { st with rels := st.rels.map f } t a b = hasEdge st t a b := by
  rw [hasEdge, hasEdge]
  dsimp only
  rw [List.any_map]
  congr 1
  funext r
  have h := hf r
  rw [relProj, relProj] at h
  have ht : (f r).typ = r.typ := congrArg Prod.fst h
  have h2 := congrArg Prod.snd h
  have hs : (f r).src = r.src := congrArg Prod.fst h2
  have hd : (f r).dst = r.dst := congrArg Prod.snd h2
  simp only [edgeIs, Function.comp, ht, hs, hd]

theorem mergeEdgeStep_nodes (typ : String) (bidir : Bool) (pn : List String)
    (row : PropRow) (a b : Nat) (st : GDB) :
    (mergeEdgeStep typ bidir pn row a b st).1.nodes = st.nodes := by
  rw [mergeEdgeStep]
  by_cases hc : st.rels.any (fun r =>
      if bidir then edgeIs r typ a b || edgeIs r typ b a else edgeIs r typ a b) = true
  · rw [if_pos hc]
  · rw [if_neg hc]

theorem mergeEdgeStep_hasEdge_pos (typ : String) (bidir : Bool) (pn : List String)
    (row : PropRow) (a b : Nat) (st : GDB)
    (hc : st.rels.any (fun r =>
      if bidir then edgeIs r typ a b || edgeIs r typ b a
      else edgeIs r typ a b) = true) (t : String) (x y : Nat) :
    hasEdge (mergeEdgeStep typ bidir pn row a b st).1 t x y = hasEdge st t x y := by
  rw [mergeEdgeStep, if_pos hc]
  exact hasEdge_map_props st _ (fun r => by
    rw [relProj, relProj]
    by_cases hr : (if bidir then edgeIs r typ a b || edgeIs r typ b a
        else edgeIs r typ a b) = true
    · rw [if_pos hr]
    · rw [if_neg hr]) t x y

theorem mergeEdgeStep_hasEdge_neg (typ : String) (bidir : Bool) (pn : List String)
    (row : PropRow) (a b : Nat) (st : GDB)
    (hc : ¬ st.rels.any (fun r =>
      if bidir then edgeIs r typ a b || edgeIs r typ b a
      else edgeIs r typ a b) = true) (t : String) (x y : Nat) :
    hasEdge (mergeEdgeStep typ bidir pn row a b st).1 t x y =
      (hasEdge st t x y ||
        edgeIs ⟨typ, a, b, applySetClause pn row []⟩ t x y) := by
  rw [mergeEdgeStep, if_neg hc]
  exact hasEdge_append_one st _ t x y

theorem mergeEdgeStep_mono (typ : String) (bidir : Bool) (pn : List String)
    (row : PropRow) (a b : Nat) (st : GDB) (t : String) (x y : Nat)
    (h : hasEdge st t x y = true) :
    hasEdge (mergeEdgeStep typ bidir pn row a b st).1 t x y = true := by
  by_cases hc : st.rels.any (fun r =>
      if bidir then edgeIs r typ a b || edgeIs r typ b a else edgeIs r typ a b) = true
  · rw [mergeEdgeStep_hasEdge_pos typ bidir pn row a b st hc]
    exact h
  · rw [mergeEdgeStep_hasEdge_neg typ bidir pn row a b st hc, h, Bool.true_or]

theorem any_edge_split (st : GDB) (typ : String) (a b : Nat) (bidir : Bool) :
    st.rels.any (fun r =>
      if bidir then edgeIs r typ a b || edgeIs r typ b a else edgeIs r typ a b) =
      (if bidir then hasEdge st typ a b || hasEdge st typ b a
       else hasEdge st typ a b) := by
  by_cases hb : bidir = true
  · subst hb
    simp only [if_true]
    rw [hasEdge, hasEdge]
    induction st.rels with
    | nil => rfl
    | cons r rest ih =>
      simp only [List.any_cons]
      rw [ih]
      cases h1 : edgeIs r typ a b <;> cases h2 : edgeIs r typ b a <;>
        cases h3 : rest.any (fun r => edgeIs r typ a b) <;>
        cases h4 : rest.any (fun r => edgeIs r typ b a) <;> rfl
  · have hb' : bidir = false := Bool.eq_false_iff.mpr hb
    subst hb'
    simp only [Bool.false_eq_true, if_false]
    rfl

theorem mergeEdgeStep_ensures (typ : String) (bidir : Bool) (pn : List String)
    (row : PropRow) (a b : Nat) (st : GDB) :
    edgeEnsured typ bidir a b (mergeEdgeStep typ bidir pn row a b st).1 = true := by
  rw [edgeEnsured]
  by_cases hc : st.rels.any (fun r =>
      if bidir then edgeIs r typ a b || edgeIs r typ b a else edgeIs r typ a b) = true
  · have hc' := hc
    rw [any_edge_split] at hc'
    by_cases hb : bidir = true
    · subst hb
      rw [if_pos rfl]
      rw [if_pos rfl] at hc'
      rw [mergeEdgeStep_hasEdge_pos typ true pn row a b st hc,
        mergeEdgeStep_hasEdge_pos typ true pn row a b st hc]
      exact hc'
    · have hb' : bidir = false := Bool.eq_false_iff.mpr hb
      subst hb'
      simp only [Bool.false_eq_true, if_false] at hc' ⊢
      rw [mergeEdgeStep_hasEdge_pos typ false pn row a b st hc]
      exact hc'
  · by_cases hb : bidir = true
    · subst hb
      rw [if_pos rfl,
        mergeEdgeStep_hasEdge_neg typ true pn row a b st hc]
      simp [edgeIs]
    · have hb' : bidir = false := Bool.eq_false_iff.mpr hb
      subst hb'
      simp only [Bool.false_eq_true, if_false]
      rw [mergeEdgeStep_hasEdge_neg typ false pn row a b st hc]
      simp [edgeIs]

theorem mem_idPairs (as bs : List GNode) (a b : GNode)
    (ha : a ∈ as) (hb : b ∈ bs) : (a.id, b.id) ∈ idPairs as bs := by
  induction as with
  | nil => cases ha
  | cons x rest ih =>
    rw [idPairs, List.foldr_cons]
    rcases List.mem_cons.mp ha with rfl | htail
    · exact List.mem_append_left _ (List.mem_map_of_mem _ hb)
    · exact List.mem_append_right _ (by simpa [idPairs] using ih htail)


theorem matchByKey_nodes_eq (st st2 : GDB) (h : st2.nodes = st.nodes)
    (label key : String) (v : PyVal) :
    matchByKey st2 label key v = matchByKey st label key v := by
  rw [matchByKey, matchByKey, h]

theorem addEdgesList_post (typ : String) :
    ∀ (prs : List (Nat × Nat)) (st : GDB),
      (addEdgesList typ prs st).1.nodes = st.nodes ∧
      (addEdgesList typ prs st).1.nextId = st.nextId ∧
      (∀ t x y, hasEdge st t x y = true →
        hasEdge (addEdgesList typ prs st).1 t x y = true) ∧
      (∀ p ∈ prs, hasEdge (addEdgesList typ prs st).1 typ p.1 p.2 = true) := by
  intro prs
  induction prs with
  | nil =>
    intro st
    exact ⟨rfl, rfl, fun _ _ _ h => h, fun p hp => absurd hp (List.not_mem_nil p)⟩
  | cons p ps ih =>
    intro st
    rw [addEdgesList]
    obtain ⟨hn, hi, hmono, hens⟩ := ih (addEdgeIfAbsent typ p.1 p.2 st).1
    have hn0 := addEdgeIfAbsent_nodes typ p.1 p.2 st
    refine ⟨by rw [hn, hn0], ?_, ?_, ?_⟩
    · rw [hi]
      rw [addEdgeIfAbsent]
      by_cases hc : hasEdge st typ p.1 p.2 = true
      · rw [if_pos hc]
      · rw [if_neg hc]
    · intro t x y h
      exact hmono t x y (addEdgeIfAbsent_mono typ p.1 p.2 st t x y h)
    · intro q hq
      rcases List.mem_cons.mp hq with rfl | htail
      · exact hmono typ q.1 q.2 (addEdgeIfAbsent_ensures typ q.1 q.2 st)
      · exact hens q htail

theorem mergeEdgesList_post (typ : String) (bidir : Bool) (pn : List String)
    (row : PropRow) :
    ∀ (prs : List (Nat × Nat)) (st : GDB),
      (mergeEdgesList typ bidir pn row prs st).1.nodes = st.nodes ∧
      (∀ t x y, hasEdge st t x y = true →
        hasEdge (mergeEdgesList typ bidir pn row prs st).1 t x y = true) ∧
      (∀ p ∈ prs, edgeEnsured typ bidir p.1 p.2
        (mergeEdgesList typ bidir pn row prs st).1 = true) := by
  intro prs
  induction prs with
  | nil =>
    intro st
    exact ⟨rfl, fun _ _ _ h => h, fun p hp => absurd hp (List.not_mem_nil p)⟩
  | cons p ps ih =>
    intro st
    rw [mergeEdgesList]
    obtain ⟨hn, hmono, hens⟩ := ih (mergeEdgeStep typ bidir pn row p.1 p.2 st).1
    refine ⟨by rw [hn, mergeEdgeStep_nodes], ?_, ?_⟩
    · intro t x y h
      exact hmono t x y (mergeEdgeStep_mono typ bidir pn row p.1 p.2 st t x y h)
    · intro q hq
      rcases List.mem_cons.mp hq with rfl | htail
      · have hstep := mergeEdgeStep_ensures typ bidir pn row q.1 q.2 st
        rw [edgeEnsured] at hstep ⊢
        by_cases hb : bidir = true
        · subst hb
          rw [if_pos rfl] at hstep ⊢
          cases h1 : hasEdge (mergeEdgeStep typ true pn row q.1 q.2 st).1 typ q.1 q.2 with
          | true =>
            rw [hmono typ q.1 q.2 h1, Bool.true_or]
          | false =>
            rw [h1, Bool.false_or] at hstep
            rw [hmono typ q.2 q.1 hstep, Bool.or_true]
        · have hb' : bidir = false := Bool.eq_false_iff.mpr hb
          subst hb'
          simp only [Bool.false_eq_true, if_false] at hstep ⊢
          exact hmono typ q.1 q.2 hstep
      · exact hens q htail

theorem fkPairsFold_post (typ from_label from_key to_label to_key : String) :
    ∀ (pairs : List (PyVal × PyVal)) (st : GDB),
      (fkPairsFold typ from_label from_key to_label to_key pairs st).1.nodes =
        st.nodes ∧
      (∀ t x y, hasEdge st t x y = true →
        hasEdge (fkPairsFold typ from_label from_key to_label to_key pairs st).1
          t x y = true) ∧
      (∀ p ∈ pairs,
        ∀ a ∈ matchByKey st from_label from_key p.1,
        ∀ b ∈ matchByKey st to_label to_key p.2,
        hasEdge (fkPairsFold typ from_label from_key to_label to_key pairs st).1
          typ a.id b.id = true) := by
  intro pairs
  induction pairs with
  | nil =>
    intro st
    exact ⟨rfl, fun _ _ _ h => h, fun p hp => absurd hp (List.not_mem_nil p)⟩
  | cons p ps ih =>
    intro st
    rw [fkPairsFold]
    set st1 := (addEdgesList typ
      (idPairs (matchByKey st from_label from_key p.1)
        (matchByKey st to_label to_key p.2)) st).1 with hst1
    obtain ⟨hn1, hi1, hmono1, hens1⟩ := addEdgesList_post typ
      (idPairs (matchByKey st from_label from_key p.1)
        (matchByKey st to_label to_key p.2)) st
    obtain ⟨hn2, hmono2, hens2⟩ := ih st1
    refine ⟨by rw [hn2, hn1], ?_, ?_⟩
    · intro t x y h
      exact hmono2 t x y (hmono1 t x y h)
    · intro q hq a ha b hb
      rcases List.mem_cons.mp hq with rfl | htail
      · exact hmono2 typ a.id b.id
          (hens1 (a.id, b.id) (mem_idPairs _ _ a b ha hb))
      · rw [← matchByKey_nodes_eq st st1 hn1 from_label from_key q.1] at ha
        rw [← matchByKey_nodes_eq st st1 hn1 to_label to_key q.2] at hb
        exact hens2 q htail a ha b hb

theorem computedRowsFold_post (typ : String) (bidir : Bool) (pn : List String)
    (from_label from_key to_label to_key : String) :
    ∀ (rows : List ((PyVal × PyVal) × PropRow)) (st : GDB),
      (computedRowsFold typ bidir pn from_label from_key to_label to_key
        rows st).1.nodes = st.nodes ∧
      (∀ t x y, hasEdge st t x y = true →
        hasEdge (computedRowsFold typ bidir pn from_label from_key to_label
          to_key rows st).1 t x y = true) ∧
      (∀ row ∈ rows,
        ∀ a ∈ matchByKey st from_label from_key row.1.1,
        ∀ b ∈ matchByKey st to_label to_key row.1.2,
        edgeEnsured typ bidir a.id b.id
          (computedRowsFold typ bidir pn from_label from_key to_label to_key
            rows st).1 = true) := by
  intro rows
  induction rows with
  | nil =>
    intro st
    exact ⟨rfl, fun _ _ _ h => h, fun p hp => absurd hp (List.not_mem_nil p)⟩
  | cons row rest ih =>
    intro st
    rw [computedRowsFold]
    set st1 := (mergeEdgesList typ bidir pn row.2
      (idPairs (matchByKey st from_label from_key row.1.1)
        (matchByKey st to_label to_key row.1.2)) st).1 with hst1
    obtain ⟨hn1, hmono1, hens1⟩ := mergeEdgesList_post typ bidir pn row.2
      (idPairs (matchByKey st from_label from_key row.1.1)
        (matchByKey st to_label to_key row.1.2)) st
    obtain ⟨hn2, hmono2, hens2⟩ := ih st1
    refine ⟨by rw [hn2, hn1], ?_, ?_⟩
    · intro t x y h
      exact hmono2 t x y (hmono1 t x y h)
    · intro q hq a ha b hb
      rcases List.mem_cons.mp hq with rfl | htail
      · have := hens1 (a.id, b.id) (mem_idPairs _ _ a b ha hb)
        rw [edgeEnsured] at this ⊢
        by_cases hbd : bidir = true
        · subst hbd
          rw [if_pos rfl] at this ⊢
          cases h1 : hasEdge st1 typ a.id b.id with
          | true => rw [hmono2 typ a.id b.id h1, Bool.true_or]
          | false =>
            rw [h1, Bool.false_or] at this
            rw [hmono2 typ b.id a.id this, Bool.or_true]
        · have hb' : bidir = false := Bool.eq_false_iff.mpr hbd
          subst hb'
          simp only [Bool.false_eq_true, if_false] at this ⊢
          exact hmono2 typ a.id b.id this
      · rw [← matchByKey_nodes_eq st st1 hn1 from_label from_key q.1.1] at ha
        rw [← matchByKey_nodes_eq st st1 hn1 to_label to_key q.1.2] at hb
        exact hens2 q htail a ha b hb


theorem edgeEnsured_mono (typ : String) (bidir : Bool) (a b : Nat)
    (st st2 : GDB)
    (hmono : ∀ t x y, hasEdge st t x y = true → hasEdge st2 t x y = true)
    (h : edgeEnsured typ bidir a b st = true) :
    edgeEnsured typ bidir a b st2 = true := by
  rw [edgeEnsured] at h ⊢
  by_cases hb : bidir = true
  · subst hb
    rw [if_pos rfl] at h ⊢
    cases h1 : hasEdge st typ a b with
    | true => rw [hmono typ a b h1, Bool.true_or]
    | false =>
      rw [h1, Bool.false_or] at h
      rw [hmono typ b a h, Bool.or_true]
  · have hb' : bidir = false := Bool.eq_false_iff.mpr hb
    subst hb'
    simp only [Bool.false_eq_true, if_false] at h ⊢
    exact hmono typ a b h

theorem relDone_mono (db : SqlDb) (schema : GraphSchema)
    (rel : RelationshipType) (st st2 : GDB) (hn : st2.nodes = st.nodes)
    (hmono : ∀ t x y, hasEdge st t x y = true → hasEdge st2 t x y = true)
    (hd : relDone db schema rel st) : relDone db schema rel st2 := by
  constructor
  · intro hfk fn tn fk tk pairs h1 h2 h3 h4 h5 p hp a ha b hb
    rw [matchByKey_nodes_eq st st2 hn] at ha hb
    exact hmono _ _ _ (hd.1 hfk fn tn fk tk pairs h1 h2 h3 h4 h5 p hp a ha b hb)
  · intro hnfk fn tn fk tk rows h1 h2 h3 h4 h5 row hrow a ha b hb
    rw [matchByKey_nodes_eq st st2 hn] at ha hb
    exact edgeEnsured_mono _ _ _ _ st st2 hmono
      (hd.2 hnfk fn tn fk tk rows h1 h2 h3 h4 h5 row hrow a ha b hb)

theorem migrateRelFk_post (db : SqlDb) (schema : GraphSchema)
    (rel : RelationshipType) (st st' : GDB) (c : Nat)
    (h : migrateRelFk db schema rel st = Except.ok (st', c)) :
    st'.nodes = st.nodes ∧
    (∀ t x y, hasEdge st t x y = true → hasEdge st' t x y = true) ∧
    fkRelDone db schema rel st' := by
  rw [migrateRelFk] at h
  by_cases hg : ¬ optTruthy rel.from_id_column = true ∨
      ¬ optTruthy rel.to_id_column = true
  · rw [if_pos hg] at h; cases h
  · rw [if_neg hg] at h
    rcases h1 : getNode schema rel.from_label with e | from_node
    all_goals rw [h1] at h
    all_goals dsimp only at h
    · cases h
    rcases h2 : getNode schema rel.to_label with e | to_node
    all_goals rw [h2] at h
    all_goals dsimp only at h
    · cases h
    rcases h3 : firstMergeKey from_node with e | from_key
    all_goals rw [h3] at h
    all_goals dsimp only at h
    · cases h
    rcases h4 : firstMergeKey to_node with e | to_key
    all_goals rw [h4] at h
    all_goals dsimp only at h
    · cases h
    rcases h5 : (db (fkSql rel)).mapM extractPair with e | pairs
    all_goals rw [h5] at h
    all_goals dsimp only at h
    · cases h
    have hfold := Except.ok.inj h
    obtain ⟨hn, hmono, hens⟩ :=
      fkPairsFold_post rel.type rel.from_label from_key rel.to_label to_key pairs st
    have hst' : (fkPairsFold rel.type rel.from_label from_key rel.to_label
        to_key pairs st).1 = st' := congrArg Prod.fst hfold
    rw [hst'] at hn hmono hens
    refine ⟨hn, hmono, ?_⟩
    intro fn tn fk tk prs h1' h2' h3' h4' h5' p hp a ha b hb
    obtain rfl : fn = from_node := (Except.ok.inj (h1.symm.trans h1')).symm
    obtain rfl : tn = to_node := (Except.ok.inj (h2.symm.trans h2')).symm
    obtain rfl : fk = from_key := (Except.ok.inj (h3.symm.trans h3')).symm
    obtain rfl : tk = to_key := (Except.ok.inj (h4.symm.trans h4')).symm
    obtain rfl : prs = pairs := (Except.ok.inj (h5.symm.trans h5')).symm
    rw [matchByKey_nodes_eq st st' hn] at ha hb
    exact hens p hp a ha b hb

theorem migrateRelComputed_post (db : SqlDb) (schema : GraphSchema)
    (rel : RelationshipType) (st st' : GDB) (c : Nat)
    (h : migrateRelComputed db schema rel st = Except.ok (st', c)) :
    st'.nodes = st.nodes ∧
    (∀ t x y, hasEdge st t x y = true → hasEdge st' t x y = true) ∧
    compRelDone db schema rel st' := by
  rw [migrateRelComputed] at h
  by_cases hg : ¬ optTruthy rel.computation_query = true
  · rw [if_pos hg] at h; cases h
  · rw [if_neg hg] at h
    rcases h1 : getNode schema rel.from_label with e | from_node
    all_goals rw [h1] at h
    all_goals dsimp only at h
    · cases h
    rcases h2 : getNode schema rel.to_label with e | to_node
    all_goals rw [h2] at h
    all_goals dsimp only at h
    · cases h
    rcases h3 : firstMergeKey from_node with e | from_key
    all_goals rw [h3] at h
    all_goals dsimp only at h
    · cases h
    rcases h4 : firstMergeKey to_node with e | to_key
    all_goals rw [h4] at h
    all_goals dsimp only at h
    · cases h
    rcases h5 : (db (rel.computation_query.getD "")).mapM
        (extractComputedRow (rel.properties.map (·.name))) with e | rows
    all_goals rw [h5] at h
    all_goals dsimp only at h
    · cases h
    have hfold := Except.ok.inj h
    obtain ⟨hn, hmono, hens⟩ := computedRowsFold_post rel.type rel.bidirectional
      (rel.properties.map (·.name)) rel.from_label from_key rel.to_label
      to_key rows st
    have hst' : (computedRowsFold rel.type rel.bidirectional
        (rel.properties.map (·.name)) rel.from_label from_key rel.to_label
        to_key rows st).1 = st' := congrArg Prod.fst hfold
    rw [hst'] at hn hmono hens
    refine ⟨hn, hmono, ?_⟩
    intro fn tn fk tk rws h1' h2' h3' h4' h5' row hrow a ha b hb
    obtain rfl : fn = from_node := (Except.ok.inj (h1.symm.trans h1')).symm
    obtain rfl : tn = to_node := (Except.ok.inj (h2.symm.trans h2')).symm
    obtain rfl : fk = from_key := (Except.ok.inj (h3.symm.trans h3')).symm
    obtain rfl : tk = to_key := (Except.ok.inj (h4.symm.trans h4')).symm
    obtain rfl : rws = rows := (Except.ok.inj (h5.symm.trans h5')).symm
    rw [matchByKey_nodes_eq st st' hn] at ha hb
    exact hens row hrow a ha b hb

theorem migrate_relationship_post (db : SqlDb) (schema : GraphSchema)
    (rel : RelationshipType) (st st' : GDB) (c : Nat)
    (h : migrate_relationship db schema rel st = Except.ok (st', c)) :
    st'.nodes = st.nodes ∧
    (∀ t x y, hasEdge st t x y = true → hasEdge st' t x y = true) ∧
    relDone db schema rel st' := by
  rw [migrate_relationship] at h
  by_cases hfk : rel.source_type = RelationshipSourceType.FOREIGN_KEY
  · rw [if_pos hfk] at h
    obtain ⟨hn, hmono, hdone⟩ := migrateRelFk_post db schema rel st st' c h
    exact ⟨hn, hmono, fun _ => hdone, fun hne => absurd hfk hne⟩
  · rw [if_neg hfk] at h
    obtain ⟨hn, hmono, hdone⟩ := migrateRelComputed_post db schema rel st st' c h
    exact ⟨hn, hmono, fun hyes => absurd hyes hfk, fun _ => hdone⟩

theorem relPhase_post (db : SqlDb) (schema : GraphSchema) :
    ∀ (rels : List RelationshipType) (st : GDB) (log : List MigStep)
      (st2 : GDB) (cs : List (String × Nat)),
      relPhase db schema rels st = (log, Except.ok (st2, cs)) →
      st2.nodes = st.nodes ∧
      (∀ t x y, hasEdge st t x y = true → hasEdge st2 t x y = true) ∧
      (∀ rel ∈ rels, relDone db schema rel st2) ∧
      (∀ rel ∈ rels, ∃ st0 res,
        migrate_relationship db schema rel st0 = Except.ok res) := by
  intro rels
  induction rels with
  | nil =>
    intro st log st2 cs h
    rw [relPhase] at h
    injection h with h1 h2
    injection h2 with h3
    injection h3 with h4 h5
    subst h4
    exact ⟨rfl, fun _ _ _ hh => hh,
      fun rel hrel => absurd hrel (List.not_mem_nil rel),
      fun rel hrel => absurd hrel (List.not_mem_nil rel)⟩
  | cons rel rest ih =>
    intro st log st2 cs h
    rw [relPhase] at h
    rcases hmr : migrate_relationship db schema rel st with e | ⟨st1, c⟩
    all_goals rw [hmr] at h
    all_goals dsimp only at h
    · injection h with h1 h2
      cases h2
    · rcases hnext : relPhase db schema rest st1 with ⟨log', res'⟩
      rw [hnext] at h
      dsimp only at h
      rcases res' with e | ⟨stq, csq⟩
      · injection h with h1 h2
        cases h2
      · injection h with h1 h2
        injection h2 with h3
        injection h3 with h4 h5
        obtain ⟨hn1, hmono1, hdone1⟩ :=
          migrate_relationship_post db schema rel st st1 c hmr
        obtain ⟨hn2, hmono2, hdone2, hok2⟩ := ih st1 log' stq csq hnext
        rw [h4] at hn2 hmono2 hdone2
        refine ⟨hn2.trans hn1, fun t x y hh => hmono2 t x y (hmono1 t x y hh),
          ?_, ?_⟩
        · intro r hr
          rcases List.mem_cons.mp hr with rfl | htail
          · exact relDone_mono db schema r st1 st2 hn2 hmono2 hdone1
          · exact hdone2 r htail
        · intro r hr
          rcases List.mem_cons.mp hr with rfl | htail
          · exact ⟨st, (st1, c), hmr⟩
          · exact hok2 r htail


theorem migrateRelFk_ok_any (db : SqlDb) (schema : GraphSchema)
    (rel : RelationshipType) (st0 : GDB) (res0 : GDB × Nat)
    (h : migrateRelFk db schema rel st0 = Except.ok res0) (st : GDB) :
    ∃ res, migrateRelFk db schema rel st = Except.ok res := by
  rw [migrateRelFk] at h ⊢
  by_cases hg : ¬ optTruthy rel.from_id_column = true ∨
      ¬ optTruthy rel.to_id_column = true
  · rw [if_pos hg] at h; cases h
  · rw [if_neg hg] at h ⊢
    rcases h1 : getNode schema rel.from_label with e | from_node
    all_goals rw [h1] at h
    all_goals dsimp only at h ⊢
    · cases h
    rcases h2 : getNode schema rel.to_label with e | to_node
    all_goals rw [h2] at h
    all_goals dsimp only at h ⊢
    · cases h
    rcases h3 : firstMergeKey from_node with e | from_key
    all_goals rw [h3] at h
    all_goals dsimp only at h ⊢
    · cases h
    rcases h4 : firstMergeKey to_node with e | to_key
    all_goals rw [h4] at h
    all_goals dsimp only at h ⊢
    · cases h
    rcases h5 : (db (fkSql rel)).mapM extractPair with e | pairs
    all_goals rw [h5] at h
    all_goals dsimp only at h ⊢
    · cases h
    exact ⟨_, rfl⟩

theorem migrateRelComputed_ok_any (db : SqlDb) (schema : GraphSchema)
    (rel : RelationshipType) (st0 : GDB) (res0 : GDB × Nat)
    (h : migrateRelComputed db schema rel st0 = Except.ok res0) (st : GDB) :
    ∃ res, migrateRelComputed db schema rel st = Except.ok res := by
  rw [migrateRelComputed] at h ⊢
  by_cases hg : ¬ optTruthy rel.computation_query = true
  · rw [if_pos hg] at h; cases h
  · rw [if_neg hg] at h ⊢
    rcases h1 : getNode schema rel.from_label with e | from_node
    all_goals rw [h1] at h
    all_goals dsimp only at h ⊢
    · cases h
    rcases h2 : getNode schema rel.to_label with e | to_node
    all_goals rw [h2] at h
    all_goals dsimp only at h ⊢
    · cases h
    rcases h3 : firstMergeKey from_node with e | from_key
    all_goals rw [h3] at h
    all_goals dsimp only at h ⊢
    · cases h
    rcases h4 : firstMergeKey to_node with e | to_key
    all_goals rw [h4] at h
    all_goals dsimp only at h ⊢
    · cases h
    rcases h5 : (db (rel.computation_query.getD "")).mapM
        (extractComputedRow (rel.properties.map (·.name))) with e | rows
    all_goals rw [h5] at h
    all_goals dsimp only at h
    · cases h
    exact ⟨_, by rw [h5]⟩

theorem migrate_relationship_ok_any (db : SqlDb) (schema : GraphSchema)
    (rel : RelationshipType) (st0 : GDB) (res0 : GDB × Nat)
    (h : migrate_relationship db schema rel st0 = Except.ok res0) (st : GDB) :
    ∃ res, migrate_relationship db schema rel st = Except.ok res := by
  rw [migrate_relationship] at h ⊢
  by_cases hfk : rel.source_type = RelationshipSourceType.FOREIGN_KEY
  · rw [if_pos hfk] at h ⊢
    exact migrateRelFk_ok_any db schema rel st0 res0 h st
  · rw [if_neg hfk] at h ⊢
    exact migrateRelComputed_ok_any db schema rel st0 res0 h st

/-! ## Run-2 transfer machinery

Generic `Forall₂` facts, and the transfer of match results and edge
checks across shape-equal stores, used to show the second run of
`migrate_all` only updates. -/

theorem list_all_congr {α : Type} (p q : α → Bool) :
    ∀ l : List α, (∀ x ∈ l, p x = q x) → l.all p = l.all q := by
  intro l
  induction l with
  | nil => intro _; rfl
  | cons a t ih =>
    intro h
    rw [List.all_cons, List.all_cons, h a (List.mem_cons_self _ _),
      ih (fun x hx => h x (List.mem_cons_of_mem _ hx))]

theorem forall₂_filter_congr {α β : Type} (R : α → β → Prop)
    (p : α → Bool) (q : β → Bool) :
    ∀ {l : List α} {l' : List β}, List.Forall₂ R l l' →
      (∀ a b, R a b → p a = q b) → List.Forall₂ R (l.filter p) (l'.filter q) := by
  intro l l' h hpq
  induction h with
  | nil => exact List.Forall₂.nil
  | @cons a b l₁ l₂ hab htail ih =>
    rw [List.filter_cons, List.filter_cons, ← hpq _ _ hab]
    by_cases hp : p a = true
    · rw [if_pos hp, if_pos hp]
      exact List.Forall₂.cons hab ih
    · rw [if_neg hp, if_neg hp]
      exact ih

theorem forall₂_any_congr {α β : Type} (R : α → β → Prop)
    (p : α → Bool) (q : β → Bool) :
    ∀ {l : List α} {l' : List β}, List.Forall₂ R l l' →
      (∀ a b, R a b → p a = q b) → l.any p = l'.any q := by
  intro l l' h hpq
  induction h with
  | nil => rfl
  | @cons a b l₁ l₂ hab htail ih =>
    rw [List.any_cons, List.any_cons, hpq _ _ hab, ih]

theorem forall₂_mem_left {α β : Type} (R : α → β → Prop) :
    ∀ {l : List α} {l' : List β}, List.Forall₂ R l l' →
      ∀ a ∈ l, ∃ b ∈ l', R a b := by
  intro l l' h
  induction h with
  | nil => intro a ha; cases ha
  | @cons a b l₁ l₂ hab htail ih =>
    intro x hx
    rcases List.mem_cons.mp hx with rfl | hmem
    · exact ⟨b, List.mem_cons_self _ _, hab⟩
    · obtain ⟨y, hy, hr⟩ := ih x hmem
      exact ⟨y, List.mem_cons_of_mem _ hy, hr⟩

theorem forall₂_mem_right {α β : Type} (R : α → β → Prop) :
    ∀ {l : List α} {l' : List β}, List.Forall₂ R l l' →
      ∀ b ∈ l', ∃ a ∈ l, R a b := by
  intro l l' h
  induction h with
  | nil => intro b hb; cases hb
  | @cons a b l₁ l₂ hab htail ih =>
    intro y hy
    rcases List.mem_cons.mp hy with rfl | hmem
    · exact ⟨a, List.mem_cons_self _ _, hab⟩
    · obtain ⟨x, hx, hr⟩ := ih y hmem
      exact ⟨x, List.mem_cons_of_mem _ hx, hr⟩

theorem forall₂_map_right_of {α β : Type} (R : α → β → Prop) (f : β → β) :
    ∀ {l : List α} {l' : List β}, List.Forall₂ R l l' →
      (∀ a b, R a b → R a (f b)) → List.Forall₂ R l (l'.map f) := by
  intro l l' h hf
  induction h with
  | nil => exact List.Forall₂.nil
  | @cons a b l₁ l₂ hab htail ih =>
    exact List.Forall₂.cons (hf _ _ hab) ih

theorem forall₂_map_eq {α β γ : Type} (R : α → β → Prop) (f : α → γ) (g : β → γ) :
    ∀ {l : List α} {l' : List β}, List.Forall₂ R l l' →
      (∀ a b, R a b → f a = g b) → l.map f = l'.map g := by
  intro l l' h hfg
  induction h with
  | nil => rfl
  | @cons a b l₁ l₂ hab htail ih =>
    rw [List.map_cons, List.map_cons, hfg _ _ hab, ih]

/-- Under `keyLookupEq`, the node-merge match predicate for a schema node
type evaluates identically on the two sides, for any key-value pattern
drawn from that node type's merge keys. -/
theorem nodeMatches_keyLookupEq (schema : GraphSchema) (N : NodeType)
    (hN : N ∈ schema.nodes) (kvs : List (String × PyVal))
    (hkeys : ∀ kv ∈ kvs, kv.1 ∈ N.merge_keys) (n n' : GNode)
    (hr : keyLookupEq schema n n') :
    nodeMatches n N.label kvs = nodeMatches n' N.label kvs := by
  obtain ⟨hid, hlab, hkeyeq⟩ := hr
  rw [nodeMatches, nodeMatches, hlab]
  by_cases hl : n.label = N.label
  · have hall : kvs.all (fun kv => lookupProp n.props kv.1 == some kv.2) =
        kvs.all (fun kv => lookupProp n'.props kv.1 == some kv.2) := by
      refine list_all_congr _ _ kvs ?_
      intro kv hkv
      rw [hkeyeq N hN hl.symm kv.1 (hkeys kv hkv)]
    rw [hall]
  · have hfalse : (n.label == N.label) = false := by
      simp [hl]
    rw [hfalse, Bool.false_and, Bool.false_and]
theorem getNode_spec (schema : GraphSchema) (label : String) (N : NodeType)
    (h : getNode schema label = Except.ok N) :
    N ∈ schema.nodes ∧ N.label = label := by
  rw [getNode] at h
  rcases hf : schema.get_node_by_label label with _ | M
  all_goals rw [hf] at h
  all_goals dsimp only at h
  · cases h
  · obtain rfl := Except.ok.inj h
    rw [GraphSchema.get_node_by_label] at hf
    refine ⟨List.mem_of_find?_eq_some hf, ?_⟩
    have := List.find?_some hf
    exact beq_iff_eq.mp this

theorem firstMergeKey_mem (N : NodeType) (k : String)
    (h : firstMergeKey N = Except.ok k) : k ∈ N.merge_keys := by
  rw [firstMergeKey] at h
  rcases hm : N.merge_keys with _ | ⟨k0, ks⟩
  all_goals rw [hm] at h
  all_goals dsimp only at h
  · cases h
  · obtain rfl := Except.ok.inj h
    exact List.mem_cons_self _ _

/-- `MATCH` results on two shape-equal stores are positionwise
`keyLookupEq`, when the match key is one of the label's merge keys. -/
theorem matchByKey_shape (schema : GraphSchema) (N : NodeType)
    (hN : N ∈ schema.nodes) (key : String) (hkey : key ∈ N.merge_keys)
    (v : PyVal) (st1 st2 : GDB)
    (hshape : NodeShapeEq schema st1.nodes st2.nodes) :
    List.Forall₂ (keyLookupEq schema)
      (matchByKey st1 N.label key v) (matchByKey st2 N.label key v) := by
  rw [matchByKey, matchByKey]
  by_cases hv : v = PyVal.pynone
  · rw [if_pos hv, if_pos hv]
    exact List.Forall₂.nil
  · rw [if_neg hv, if_neg hv]
    refine forall₂_filter_congr _ _ _ hshape ?_
    intro n n' hr
    obtain ⟨hid, hlab, hkeyeq⟩ := hr
    rw [hlab]
    by_cases hl : n.label = N.label
    · rw [hkeyeq N hN hl.symm key hkey]
    · have hfalse : (n.label == N.label) = false := by simp [hl]
      rw [hfalse, Bool.false_and, Bool.false_and]

theorem idPairs_eq_natProd (as bs : List GNode) :
    idPairs as bs = natProd (as.map (fun n => n.id)) (bs.map (fun n => n.id)) := by
  induction as with
  | nil => rfl
  | cons a rest ih =>
    rw [idPairs, List.foldr_cons, List.map_cons, natProd, List.foldr_cons]
    have h1 : List.map (fun b => (a.id, b.id)) bs =
        List.map (fun j => (a.id, j)) (List.map (fun n => n.id) bs) := by
      rw [List.map_map]
      rfl
    have h2 : List.foldr (fun a acc => List.map (fun b => (a.id, b.id)) bs ++ acc)
        [] rest = natProd (rest.map (fun n => n.id)) (bs.map (fun n => n.id)) := by
      rw [← ih]
      rfl
    rw [h1, h2]
    rfl

theorem idPairs_congr (as as' bs bs' : List GNode)
    (ha : as.map (fun n => n.id) = as'.map (fun n => n.id))
    (hb : bs.map (fun n => n.id) = bs'.map (fun n => n.id)) :
    idPairs as bs = idPairs as' bs' := by
  rw [idPairs_eq_natProd, idPairs_eq_natProd, ha, hb]

theorem keyLookupEq_id (schema : GraphSchema) :
    ∀ (n n' : GNode), keyLookupEq schema n n' → n.id = n'.id := by
  intro n n' hr
  exact hr.1.symm

/-- `hasEdge` depends only on the (type, endpoints) projection of the
relationship list. -/
theorem hasEdge_proj_eq (st st2 : GDB)
    (h : st2.rels.map relProj = st.rels.map relProj)
    (t : String) (a b : Nat) : hasEdge st2 t a b = hasEdge st t a b := by
  have key : ∀ (rl : List GRel), rl.any (fun r => edgeIs r t a b) =
      (rl.map relProj).any (fun pr => pr.1 == t && pr.2.1 == a && pr.2.2 == b) := by
    intro rl
    induction rl with
    | nil => rfl
    | cons r rs ih =>
      rw [List.map_cons, List.any_cons, List.any_cons, ih]
      rfl
  rw [hasEdge, hasEdge, key, key, h]

/-- Re-merging an edge list whose every edge is already present is a
no-op. -/
theorem addEdgesList_noop (typ : String) :
    ∀ (prs : List (Nat × Nat)) (st : GDB),
      (∀ p ∈ prs, hasEdge st typ p.1 p.2 = true) →
      addEdgesList typ prs st = (st, 0) := by
  intro prs
  induction prs with
  | nil => intro st _; rfl
  | cons p ps ih =>
    intro st h
    have hp : hasEdge st typ p.1 p.2 = true := h p (List.mem_cons_self _ _)
    have h1 : addEdgeIfAbsent typ p.1 p.2 st = (st, 0) := by
      rw [addEdgeIfAbsent, if_pos hp]
    have h2 := ih st (fun q hq => h q (List.mem_cons_of_mem _ hq))
    rw [addEdgesList, h1]
    dsimp only
    rw [h2]
    rfl

theorem mem_idPairs_inv (as bs : List GNode) (q : Nat × Nat)
    (hq : q ∈ idPairs as bs) : ∃ a ∈ as, ∃ b ∈ bs, q = (a.id, b.id) := by
  induction as with
  | nil => cases hq
  | cons x rest ih =>
    rw [idPairs, List.foldr_cons] at hq
    rcases List.mem_append.mp hq with h | h
    · obtain ⟨b, hb, rfl⟩ := List.mem_map.mp h
      exact ⟨x, List.mem_cons_self _ _, b, hb, rfl⟩
    · obtain ⟨a, ha, b, hb, rfl⟩ := ih (by simpa [idPairs] using h)
      exact ⟨a, List.mem_cons_of_mem _ ha, b, hb, rfl⟩

theorem edgeEnsured_proj_eq (typ : String) (bidir : Bool) (a b : Nat)
    (st st2 : GDB) (h : st2.rels.map relProj = st.rels.map relProj) :
    edgeEnsured typ bidir a b st2 = edgeEnsured typ bidir a b st := by
  simp only [edgeEnsured, hasEdge_proj_eq st st2 h]

/-- Re-merging an edge already ensured in the store only re-runs the `SET`
clause: the (type, endpoints) shapes, the nodes and the id counter are
unchanged, and nothing is created. -/
theorem mergeEdgeStep_run2 (typ : String) (bidir : Bool) (pn : List String)
    (row : PropRow) (a b : Nat) (st : GDB)
    (h : edgeEnsured typ bidir a b st = true) :
    (mergeEdgeStep typ bidir pn row a b st).1.nodes = st.nodes ∧
    (mergeEdgeStep typ bidir pn row a b st).1.nextId = st.nextId ∧
    (mergeEdgeStep typ bidir pn row a b st).1.rels.map relProj =
      st.rels.map relProj ∧
    (mergeEdgeStep typ bidir pn row a b st).2 = 0 := by
  rw [edgeEnsured] at h
  have hany : st.rels.any (fun r =>
      if bidir then edgeIs r typ a b || edgeIs r typ b a
      else edgeIs r typ a b) = true := by
    rw [any_edge_split]
    exact h
  rw [mergeEdgeStep]
  dsimp only
  rw [if_pos hany]
  refine ⟨rfl, rfl, ?_, rfl⟩
  dsimp only
  have hproj : ∀ rl : List GRel,
      (rl.map (fun r =>
        if (if bidir then edgeIs r typ a b || edgeIs r typ b a
            else edgeIs r typ a b) then
          { r with props := applySetClause pn row r.props } else r)).map relProj =
      rl.map relProj := by
    intro rl
    induction rl with
    | nil => rfl
    | cons r rs ih =>
      rw [List.map_cons, List.map_cons, List.map_cons, ih]
      by_cases hc : (if bidir then edgeIs r typ a b || edgeIs r typ b a
          else edgeIs r typ a b) = true
      · rw [if_pos hc]
        rfl
      · rw [if_neg hc]
  exact hproj st.rels

theorem mergeEdgesList_run2 (typ : String) (bidir : Bool) (pn : List String)
    (row : PropRow) :
    ∀ (prs : List (Nat × Nat)) (st : GDB),
      (∀ p ∈ prs, edgeEnsured typ bidir p.1 p.2 st = true) →
      (mergeEdgesList typ bidir pn row prs st).1.nodes = st.nodes ∧
      (mergeEdgesList typ bidir pn row prs st).1.nextId = st.nextId ∧
      (mergeEdgesList typ bidir pn row prs st).1.rels.map relProj =
        st.rels.map relProj ∧
      (mergeEdgesList typ bidir pn row prs st).2 = 0 := by
  intro prs
  induction prs with
  | nil =>
    intro st _
    exact ⟨rfl, rfl, rfl, rfl⟩
  | cons p ps ih =>
    intro st h
    obtain ⟨hn1, hi1, hp1, hc1⟩ := mergeEdgeStep_run2 typ bidir pn row p.1 p.2 st
      (h p (List.mem_cons_self _ _))
    have hrest : ∀ q ∈ ps, edgeEnsured typ bidir q.1 q.2
        (mergeEdgeStep typ bidir pn row p.1 p.2 st).1 = true := by
      intro q hq
      rw [edgeEnsured_proj_eq typ bidir q.1 q.2 st _ hp1]
      exact h q (List.mem_cons_of_mem _ hq)
    obtain ⟨hn2, hi2, hp2, hc2⟩ := ih (mergeEdgeStep typ bidir pn row p.1 p.2 st).1 hrest
    rw [mergeEdgesList]
    exact ⟨hn2.trans hn1, hi2.trans hi1, hp2.trans hp1, by rw [hc1, hc2]⟩

/-- Re-running the FK edge fold when every derivable edge is already in
the store leaves the store exactly unchanged and creates nothing. -/
theorem fkPairsFold_run2 (schema : GraphSchema) (typ : String)
    (FN TN : NodeType) (hFN : FN ∈ schema.nodes) (hTN : TN ∈ schema.nodes)
    (fkey tkey : String) (hfkey : fkey ∈ FN.merge_keys)
    (htkey : tkey ∈ TN.merge_keys) (stF : GDB) :
    ∀ (pairs : List (PyVal × PyVal)) (cur : GDB),
      NodeShapeEq schema stF.nodes cur.nodes →
      cur.rels.map relProj = stF.rels.map relProj →
      (∀ p ∈ pairs, ∀ a ∈ matchByKey stF FN.label fkey p.1,
        ∀ b ∈ matchByKey stF TN.label tkey p.2,
        hasEdge stF typ a.id b.id = true) →
      fkPairsFold typ FN.label fkey TN.label tkey pairs cur = (cur, 0) := by
  intro pairs
  induction pairs with
  | nil => intro cur _ _ _; rfl
  | cons p ps ih =>
    intro cur hshape hproj hdone
    have hfa := matchByKey_shape schema FN hFN fkey hfkey p.1 stF cur hshape
    have hfb := matchByKey_shape schema TN hTN tkey htkey p.2 stF cur hshape
    have hida : (matchByKey stF FN.label fkey p.1).map (fun n => n.id) =
        (matchByKey cur FN.label fkey p.1).map (fun n => n.id) :=
      forall₂_map_eq _ _ _ hfa (fun a b hr => keyLookupEq_id schema a b hr)
    have hidb : (matchByKey stF TN.label tkey p.2).map (fun n => n.id) =
        (matchByKey cur TN.label tkey p.2).map (fun n => n.id) :=
      forall₂_map_eq _ _ _ hfb (fun a b hr => keyLookupEq_id schema a b hr)
    have hpairs_eq : idPairs (matchByKey cur FN.label fkey p.1)
        (matchByKey cur TN.label tkey p.2) =
        idPairs (matchByKey stF FN.label fkey p.1)
          (matchByKey stF TN.label tkey p.2) :=
      idPairs_congr _ _ _ _ hida.symm hidb.symm
    have hedges : ∀ q ∈ idPairs (matchByKey cur FN.label fkey p.1)
        (matchByKey cur TN.label tkey p.2), hasEdge cur typ q.1 q.2 = true := by
      rw [hpairs_eq]
      intro q hq
      obtain ⟨a, ha, b, hb, rfl⟩ := mem_idPairs_inv _ _ q hq
      rw [hasEdge_proj_eq stF cur hproj]
      exact hdone p (List.mem_cons_self _ _) a ha b hb
    rw [fkPairsFold]
    rw [addEdgesList_noop typ _ cur hedges]
    dsimp only
    rw [ih cur hshape hproj (fun q hq => hdone q (List.mem_cons_of_mem _ hq))]
    rfl

/-- Re-running the computed-relationship row fold when every derivable
edge is already ensured only re-runs `SET` clauses: shapes, nodes and the
id counter are unchanged and nothing is created. -/
theorem computedRowsFold_run2 (schema : GraphSchema) (typ : String)
    (bidir : Bool) (pn : List String) (FN TN : NodeType)
    (hFN : FN ∈ schema.nodes) (hTN : TN ∈ schema.nodes)
    (fkey tkey : String) (hfkey : fkey ∈ FN.merge_keys)
    (htkey : tkey ∈ TN.merge_keys) (stF : GDB) :
    ∀ (rows : List ((PyVal × PyVal) × PropRow)) (cur : GDB),
      NodeShapeEq schema stF.nodes cur.nodes →
      cur.rels.map relProj = stF.rels.map relProj →
      (∀ row ∈ rows, ∀ a ∈ matchByKey stF FN.label fkey row.1.1,
        ∀ b ∈ matchByKey stF TN.label tkey row.1.2,
        edgeEnsured typ bidir a.id b.id stF = true) →
      (computedRowsFold typ bidir pn FN.label fkey TN.label tkey rows cur).1.nodes =
        cur.nodes ∧
      (computedRowsFold typ bidir pn FN.label fkey TN.label tkey rows cur).1.nextId =
        cur.nextId ∧
      (computedRowsFold typ bidir pn FN.label fkey TN.label tkey rows cur).1.rels.map
        relProj = stF.rels.map relProj ∧
      (computedRowsFold typ bidir pn FN.label fkey TN.label tkey rows cur).2 = 0 := by
  intro rows
  induction rows with
  | nil =>
    intro cur _ hproj _
    exact ⟨rfl, rfl, hproj, rfl⟩
  | cons row rest ih =>
    intro cur hshape hproj hdone
    have hfa := matchByKey_shape schema FN hFN fkey hfkey row.1.1 stF cur hshape
    have hfb := matchByKey_shape schema TN hTN tkey htkey row.1.2 stF cur hshape
    have hida : (matchByKey stF FN.label fkey row.1.1).map (fun n => n.id) =
        (matchByKey cur FN.label fkey row.1.1).map (fun n => n.id) :=
      forall₂_map_eq _ _ _ hfa (fun a b hr => keyLookupEq_id schema a b hr)
    have hidb : (matchByKey stF TN.label tkey row.1.2).map (fun n => n.id) =
        (matchByKey cur TN.label tkey row.1.2).map (fun n => n.id) :=
      forall₂_map_eq _ _ _ hfb (fun a b hr => keyLookupEq_id schema a b hr)
    have hpairs_eq : idPairs (matchByKey cur FN.label fkey row.1.1)
        (matchByKey cur TN.label tkey row.1.2) =
        idPairs (matchByKey stF FN.label fkey row.1.1)
          (matchByKey stF TN.label tkey row.1.2) :=
      idPairs_congr _ _ _ _ hida.symm hidb.symm
    have hedges : ∀ q ∈ idPairs (matchByKey cur FN.label fkey row.1.1)
        (matchByKey cur TN.label tkey row.1.2),
        edgeEnsured typ bidir q.1 q.2 cur = true := by
      rw [hpairs_eq]
      intro q hq
      obtain ⟨a, ha, b, hb, rfl⟩ := mem_idPairs_inv _ _ q hq
      rw [edgeEnsured_proj_eq typ bidir a.id b.id stF cur hproj]
      exact hdone row (List.mem_cons_self _ _) a ha b hb
    obtain ⟨hn1, hi1, hp1, hc1⟩ := mergeEdgesList_run2 typ bidir pn row.2
      (idPairs (matchByKey cur FN.label fkey row.1.1)
        (matchByKey cur TN.label tkey row.1.2)) cur hedges
    have hshape1 : NodeShapeEq schema stF.nodes
        (mergeEdgesList typ bidir pn row.2
          (idPairs (matchByKey cur FN.label fkey row.1.1)
            (matchByKey cur TN.label tkey row.1.2)) cur).1.nodes := by
      rw [hn1]
      exact hshape
    have hproj1 : (mergeEdgesList typ bidir pn row.2
        (idPairs (matchByKey cur FN.label fkey row.1.1)
          (matchByKey cur TN.label tkey row.1.2)) cur).1.rels.map relProj =
        stF.rels.map relProj := hp1.trans hproj
    obtain ⟨hn2, hi2, hp2, hc2⟩ := ih _ hshape1 hproj1
      (fun r hr => hdone r (List.mem_cons_of_mem _ hr))
    rw [computedRowsFold]
    exact ⟨hn2.trans hn1, hi2.trans hi1, hp2, by rw [hc1, hc2]⟩

/-- A second run of a foreign-key relationship step, against a store whose
node shapes match and whose edges already satisfy the step's
postcondition, is a no-op reporting zero created relationships. -/
theorem migrateRelFk_run2 (db : SqlDb) (schema : GraphSchema)
    (rel : RelationshipType) (stF cur : GDB)
    (hshape : NodeShapeEq schema stF.nodes cur.nodes)
    (hproj : cur.rels.map relProj = stF.rels.map relProj)
    (hdone : fkRelDone db schema rel stF)
    (st0 : GDB) (res0 : GDB × Nat)
    (hok : migrateRelFk db schema rel st0 = Except.ok res0) :
    migrateRelFk db schema rel cur = Except.ok (cur, 0) := by
  rw [migrateRelFk] at hok ⊢
  by_cases hg : ¬ optTruthy rel.from_id_column = true ∨
      ¬ optTruthy rel.to_id_column = true
  · rw [if_pos hg] at hok; cases hok
  · rw [if_neg hg] at hok ⊢
    rcases h1 : getNode schema rel.from_label with e | from_node
    all_goals rw [h1] at hok
    all_goals dsimp only at hok ⊢
    · cases hok
    rcases h2 : getNode schema rel.to_label with e | to_node
    all_goals rw [h2] at hok
    all_goals dsimp only at hok ⊢
    · cases hok
    rcases h3 : firstMergeKey from_node with e | from_key
    all_goals rw [h3] at hok
    all_goals dsimp only at hok ⊢
    · cases hok
    rcases h4 : firstMergeKey to_node with e | to_key
    all_goals rw [h4] at hok
    all_goals dsimp only at hok ⊢
    · cases hok
    rcases h5 : (db (fkSql rel)).mapM extractPair with e | pairs
    all_goals rw [h5] at hok
    all_goals dsimp only at hok ⊢
    · cases hok
    obtain ⟨hFN, hFNlab⟩ := getNode_spec schema rel.from_label from_node h1
    obtain ⟨hTN, hTNlab⟩ := getNode_spec schema rel.to_label to_node h2
    have hfkey := firstMergeKey_mem from_node from_key h3
    have htkey := firstMergeKey_mem to_node to_key h4
    have hdone' := hdone from_node to_node from_key to_key pairs h1 h2 h3 h4 h5
    have hfold := fkPairsFold_run2 schema rel.type from_node to_node hFN hTN
      from_key to_key hfkey htkey stF pairs cur hshape hproj ?_
    · rw [hFNlab, hTNlab] at hfold
      rw [hfold]
    · intro p hp a ha b hb
      rw [hFNlab] at ha
      rw [hTNlab] at hb
      exact hdone' p hp a ha b hb

/-- A second run of a computed/spatial relationship step, against a store
whose node shapes match and whose edges already satisfy the step's
postcondition, only re-runs `SET` clauses and reports zero created
relationships. -/
theorem migrateRelComputed_run2 (db : SqlDb) (schema : GraphSchema)
    (rel : RelationshipType) (stF cur : GDB)
    (hshape : NodeShapeEq schema stF.nodes cur.nodes)
    (hproj : cur.rels.map relProj = stF.rels.map relProj)
    (hdone : compRelDone db schema rel stF)
    (st0 : GDB) (res0 : GDB × Nat)
    (hok : migrateRelComputed db schema rel st0 = Except.ok res0) :
    ∃ st', migrateRelComputed db schema rel cur = Except.ok (st', 0) ∧
      st'.nodes = cur.nodes ∧ st'.nextId = cur.nextId ∧
      st'.rels.map relProj = stF.rels.map relProj := by
  rw [migrateRelComputed] at hok ⊢
  by_cases hg : ¬ optTruthy rel.computation_query = true
  · rw [if_pos hg] at hok; cases hok
  · rw [if_neg hg] at hok ⊢
    rcases h1 : getNode schema rel.from_label with e | from_node
    all_goals rw [h1] at hok
    all_goals dsimp only at hok ⊢
    · cases hok
    rcases h2 : getNode schema rel.to_label with e | to_node
    all_goals rw [h2] at hok
    all_goals dsimp only at hok ⊢
    · cases hok
    rcases h3 : firstMergeKey from_node with e | from_key
    all_goals rw [h3] at hok
    all_goals dsimp only at hok ⊢
    · cases hok
    rcases h4 : firstMergeKey to_node with e | to_key
    all_goals rw [h4] at hok
    all_goals dsimp only at hok ⊢
    · cases hok
    rcases h5 : (db (rel.computation_query.getD "")).mapM
        (extractComputedRow (rel.properties.map (·.name))) with e | rows
    all_goals rw [h5] at hok
    all_goals dsimp only at hok
    · cases hok
    obtain ⟨hFN, hFNlab⟩ := getNode_spec schema rel.from_label from_node h1
    obtain ⟨hTN, hTNlab⟩ := getNode_spec schema rel.to_label to_node h2
    have hfkey := firstMergeKey_mem from_node from_key h3
    have htkey := firstMergeKey_mem to_node to_key h4
    have hdone' := hdone from_node to_node from_key to_key rows h1 h2 h3 h4 h5
    have hfold := computedRowsFold_run2 schema rel.type rel.bidirectional
      (rel.properties.map (·.name)) from_node to_node hFN hTN
      from_key to_key hfkey htkey stF rows cur hshape hproj ?_
    · obtain ⟨hn, hi, hp, hc⟩ := hfold
      rw [hFNlab, hTNlab] at hn hi hp hc
      refine ⟨(computedRowsFold rel.type rel.bidirectional
        (rel.properties.map (·.name)) rel.from_label from_key
        rel.to_label to_key rows cur).1, ?_, hn, hi, hp⟩
      rw [h5]
      dsimp only
      have hx : computedRowsFold rel.type rel.bidirectional
          (rel.properties.map (·.name)) rel.from_label from_key
          rel.to_label to_key rows cur =
          ((computedRowsFold rel.type rel.bidirectional
            (rel.properties.map (·.name)) rel.from_label from_key
            rel.to_label to_key rows cur).1, 0) := by
        rw [← hc]
      rw [hx]
    · intro row hrow a ha b hb
      rw [hFNlab] at ha
      rw [hTNlab] at hb
      exact hdone' row hrow a ha b hb

/-- A second run of any relationship step against a store satisfying the
first run's postconditions succeeds, creates nothing, and preserves the
node list, the id counter and the edge shapes. -/
theorem migrate_relationship_run2 (db : SqlDb) (schema : GraphSchema)
    (rel : RelationshipType) (stF cur : GDB)
    (hshape : NodeShapeEq schema stF.nodes cur.nodes)
    (hproj : cur.rels.map relProj = stF.rels.map relProj)
    (hdone : relDone db schema rel stF)
    (st0 : GDB) (res0 : GDB × Nat)
    (hok : migrate_relationship db schema rel st0 = Except.ok res0) :
    ∃ st', migrate_relationship db schema rel cur = Except.ok (st', 0) ∧
      st'.nodes = cur.nodes ∧ st'.nextId = cur.nextId ∧
      st'.rels.map relProj = stF.rels.map relProj := by
  rw [migrate_relationship] at hok ⊢
  by_cases hfk : rel.source_type = RelationshipSourceType.FOREIGN_KEY
  · rw [if_pos hfk] at hok ⊢
    refine ⟨cur, ?_, rfl, rfl, hproj⟩
    exact migrateRelFk_run2 db schema rel stF cur hshape hproj
      (hdone.1 hfk) st0 res0 hok
  · rw [if_neg hfk] at hok ⊢
    exact migrateRelComputed_run2 db schema rel stF cur hshape hproj
      (hdone.2 hfk) st0 res0 hok

/-- A second relationship phase against a store satisfying every
relationship's postcondition succeeds with zero creations and preserves
nodes, id counter and edge shapes. -/
theorem relPhase_run2 (db : SqlDb) (schema : GraphSchema) (stF : GDB) :
    ∀ (rels : List RelationshipType) (cur : GDB),
      NodeShapeEq schema stF.nodes cur.nodes →
      cur.rels.map relProj = stF.rels.map relProj →
      (∀ rel ∈ rels, relDone db schema rel stF) →
      (∀ rel ∈ rels, ∃ st0 res,
        migrate_relationship db schema rel st0 = Except.ok res) →
      ∃ log cur' cs, relPhase db schema rels cur = (log, Except.ok (cur', cs)) ∧
        cur'.nodes = cur.nodes ∧ cur'.nextId = cur.nextId ∧
        cur'.rels.map relProj = stF.rels.map relProj := by
  intro rels
  induction rels with
  | nil =>
    intro cur _ hproj _ _
    exact ⟨[], cur, [], rfl, rfl, rfl, hproj⟩
  | cons rel rest ih =>
    intro cur hshape hproj hdone hoks
    obtain ⟨st0, res0, hok0⟩ := hoks rel (List.mem_cons_self _ _)
    obtain ⟨st', hstep, hn, hi, hp⟩ := migrate_relationship_run2 db schema rel
      stF cur hshape hproj (hdone rel (List.mem_cons_self _ _)) st0 res0 hok0
    have hshape' : NodeShapeEq schema stF.nodes st'.nodes := by
      rw [hn]
      exact hshape
    obtain ⟨log', cur', cs, hrec, hn', hi', hp'⟩ := ih st' hshape' hp
      (fun r hr => hdone r (List.mem_cons_of_mem _ hr))
      (fun r hr => hoks r (List.mem_cons_of_mem _ hr))
    refine ⟨MigStep.relStep rel.type :: log', cur', (rel.type, 0) :: cs, ?_,
      hn'.trans hn, hi'.trans hi, hp'⟩
    rw [relPhase, hstep]
    dsimp only
    rw [hrec]

/-- A second run of one node-merge row, against a store whose node shapes
match a store where the row's merge-key pattern already has a matching
node, takes the update branch: no error, no created node, and the shape
correspondence is preserved. -/
theorem mergeNodeRow_run2 (schema : GraphSchema)
    (huniq : (schema.nodes.map (·.label)).Nodup)
    (N : NodeType) (hN : N ∈ schema.nodes)
    (row : PropRow) (hnd : (row.map Prod.fst).Nodup)
    (kvs : List (String × PyVal))
    (hkvs : rowKvs N.merge_keys row = Except.ok kvs)
    (st1 cur : GDB) (hshape : NodeShapeEq schema st1.nodes cur.nodes)
    (hfact : MatchFact N.label kvs st1) :
    ∃ cur', mergeNodeRow N.label N.merge_keys row cur = Except.ok cur' ∧
      NodeShapeEq schema st1.nodes cur'.nodes ∧
      cur'.rels = cur.rels ∧ cur'.nextId = cur.nextId := by
  obtain ⟨hkeys, hvals⟩ := rowKvs_ok_spec N.merge_keys row kvs hkvs
  have hkeys' : ∀ kv ∈ kvs, kv.1 ∈ N.merge_keys := by
    intro kv hkv
    rw [← hkeys]
    exact List.mem_map_of_mem _ hkv
  have hagree : ∀ n n', keyLookupEq schema n n' →
      nodeMatches n N.label kvs = nodeMatches n' N.label kvs :=
    fun n n' hr => nodeMatches_keyLookupEq schema N hN kvs hkeys' n n' hr
  have hany_eq : st1.nodes.any (fun n => nodeMatches n N.label kvs) =
      cur.nodes.any (fun n => nodeMatches n N.label kvs) :=
    forall₂_any_congr _ _ _ hshape hagree
  obtain ⟨n0, hn0, hm0⟩ := hfact
  have hany1 : st1.nodes.any (fun n => nodeMatches n N.label kvs) = true :=
    List.any_eq_true.mpr ⟨n0, hn0, hm0⟩
  have hany : cur.nodes.any (fun n => nodeMatches n N.label kvs) = true := by
    rw [← hany_eq]
    exact hany1
  rw [mergeNodeRow, hkvs]
  dsimp only
  rw [if_pos hany]
  refine ⟨_, rfl, ?_, rfl, rfl⟩
  refine forall₂_map_right_of _ _ hshape ?_
  intro n n' hr
  by_cases hm : nodeMatches n' N.label kvs = true
  · rw [if_pos hm]
    obtain ⟨hid, hlab, hkeyeq⟩ := hr
    have hm' := hm
    rw [nodeMatches] at hm'
    simp only [Bool.and_eq_true, List.all_eq_true, beq_iff_eq] at hm'
    refine ⟨hid, hlab, ?_⟩
    intro M hM hMlab k hk
    have hMN : M = N := node_label_inj schema huniq hM hN
      (by rw [hMlab, ← hlab, hm'.1])
    subst hMN
    have hk' : k ∈ kvs.map Prod.fst := by
      rw [hkeys]
      exact hk
    obtain ⟨kv, hkv, hkveq⟩ := List.mem_map.mp hk'
    obtain ⟨hlkrow, hnn⟩ := hvals kv hkv
    rw [lookupProp_updateProps row hnd n'.props k, ← hkveq, hlkrow]
    dsimp only
    rw [if_neg hnn]
    rw [← hkeyeq M hM (by rw [← hlab, hm'.1]) kv.1 (by rw [hkveq]; exact hk)]
    exact (hm'.2 kv hkv).symm
  · rw [if_neg hm]
    exact hr

theorem mergeRows_run2 (schema : GraphSchema)
    (huniq : (schema.nodes.map (·.label)).Nodup)
    (N : NodeType) (hN : N ∈ schema.nodes) :
    ∀ (rows : List PropRow) (st1 cur : GDB),
      (∀ r ∈ rows, (r.map Prod.fst).Nodup) →
      NodeShapeEq schema st1.nodes cur.nodes →
      (∀ r ∈ rows, ∃ kvs, rowKvs N.merge_keys r = Except.ok kvs) →
      (∀ r ∈ rows, ∀ kvs, rowKvs N.merge_keys r = Except.ok kvs →
        MatchFact N.label kvs st1) →
      ∃ cur', mergeRows N.label N.merge_keys rows cur = Except.ok cur' ∧
        NodeShapeEq schema st1.nodes cur'.nodes ∧
        cur'.rels = cur.rels ∧ cur'.nextId = cur.nextId := by
  intro rows
  induction rows with
  | nil =>
    intro st1 cur _ hshape _ _
    exact ⟨cur, rfl, hshape, rfl, rfl⟩
  | cons r rest ih =>
    intro st1 cur hnd hshape hvalid hfact
    obtain ⟨kvs, hkvs⟩ := hvalid r (List.mem_cons_self _ _)
    obtain ⟨cur1, hstep, hshape1, hrels1, hid1⟩ := mergeNodeRow_run2 schema huniq
      N hN r (hnd r (List.mem_cons_self _ _)) kvs hkvs st1 cur hshape
      (hfact r (List.mem_cons_self _ _) kvs hkvs)
    obtain ⟨cur', hrec, hshape', hrels', hid'⟩ := ih st1 cur1
      (fun q hq => hnd q (List.mem_cons_of_mem _ hq)) hshape1
      (fun q hq => hvalid q (List.mem_cons_of_mem _ hq))
      (fun q hq => hfact q (List.mem_cons_of_mem _ hq))
    refine ⟨cur', ?_, hshape', hrels'.trans hrels1, hid'.trans hid1⟩
    rw [mergeRows, hstep]
    exact hrec

theorem migrate_node_run2 (db : SqlDb) (hdb : RowKeysNodup db)
    (schema : GraphSchema) (huniq : (schema.nodes.map (·.label)).Nodup)
    (N : NodeType) (hN : N ∈ schema.nodes) (st1 cur : GDB)
    (hshape : NodeShapeEq schema st1.nodes cur.nodes)
    (hvalid : ∀ r ∈ nodeRowsOf db N, ∃ kvs,
      rowKvs N.merge_keys r = Except.ok kvs)
    (hfact : ∀ r ∈ nodeRowsOf db N, ∀ kvs,
      rowKvs N.merge_keys r = Except.ok kvs → MatchFact N.label kvs st1) :
    ∃ cur', migrate_node db N cur =
        Except.ok (cur', (nodeRowsOf db N).length) ∧
      NodeShapeEq schema st1.nodes cur'.nodes ∧
      cur'.rels = cur.rels ∧ cur'.nextId = cur.nextId := by
  obtain ⟨cur', hmr, hshape', hrels', hid'⟩ := mergeRows_run2 schema huniq N hN
    (nodeRowsOf db N) st1 cur (nodeRowsOf_nodup db hdb N) hshape hvalid hfact
  refine ⟨cur', ?_, hshape', hrels', hid'⟩
  rw [migrate_node, hmr]

/-- A second node phase, against a store whose node shapes match a store
holding a matching node for every source row's merge-key pattern, is
update-only: it succeeds, creates no node, and preserves the shape
correspondence, the relationships and the id counter. -/
theorem nodePhase_run2 (db : SqlDb) (hdb : RowKeysNodup db)
    (schema : GraphSchema) (huniq : (schema.nodes.map (·.label)).Nodup)
    (st1 : GDB) :
    ∀ (ns : List NodeType), (∀ N ∈ ns, N ∈ schema.nodes) →
    ∀ (cur : GDB), NodeShapeEq schema st1.nodes cur.nodes →
      (∀ N ∈ ns, ∀ r ∈ nodeRowsOf db N, ∃ kvs,
        rowKvs N.merge_keys r = Except.ok kvs) →
      (∀ N ∈ ns, ∀ r ∈ nodeRowsOf db N, ∀ kvs,
        rowKvs N.merge_keys r = Except.ok kvs → MatchFact N.label kvs st1) →
      ∃ log cur' cs, nodePhase db ns cur = (log, Except.ok (cur', cs)) ∧
        NodeShapeEq schema st1.nodes cur'.nodes ∧
        cur'.rels = cur.rels ∧ cur'.nextId = cur.nextId := by
  intro ns
  induction ns with
  | nil =>
    intro _ cur hshape _ _
    exact ⟨[], cur, [], rfl, hshape, rfl, rfl⟩
  | cons N rest ih =>
    intro hsub cur hshape hvalid hfact
    have hNin : N ∈ schema.nodes := hsub N (List.mem_cons_self _ _)
    obtain ⟨cur1, hstep, hshape1, hrels1, hid1⟩ := migrate_node_run2 db hdb
      schema huniq N hNin st1 cur hshape
      (hvalid N (List.mem_cons_self _ _)) (hfact N (List.mem_cons_self _ _))
    obtain ⟨log', cur', cs, hrec, hshape', hrels', hid'⟩ := ih
      (fun M hM => hsub M (List.mem_cons_of_mem _ hM)) cur1 hshape1
      (fun M hM => hvalid M (List.mem_cons_of_mem _ hM))
      (fun M hM => hfact M (List.mem_cons_of_mem _ hM))
    refine ⟨MigStep.nodeStep N.label :: log', cur',
      (N.label, (nodeRowsOf db N).length) :: cs, ?_,
      hshape', hrels'.trans hrels1, hid'.trans hid1⟩
    rw [nodePhase, hstep]
    dsimp only
    rw [hrec]

/-- C1: for a source database whose result rows are genuine dicts (unique
column names) and a schema with unique node labels, re-running
`migrate_all` without clearing after a successful run succeeds, re-merges
every node and relationship instead of creating new ones — the final
store has the same (id, label) node projection and the same
(type, endpoints) relationship projection, hence identical node and
relationship counts. -/
theorem C1_migrate_all_idempotent (db : SqlDb) (schema : GraphSchema)
    (clear : Bool) (st0 : GDB)
    (hdb : RowKeysNodup db)
    (huniq : (schema.nodes.map (·.label)).Nodup)
    (log1 : List MigStep) (stF : GDB) (nc rc : List (String × Nat))
    (h1 : migrate_all db schema clear st0 = (log1, Except.ok (stF, nc, rc))) :
    ∃ log2 stG nc2 rc2,
      migrate_all db schema false stF = (log2, Except.ok (stG, nc2, rc2)) ∧
      stG.nodes.map (fun n => (n.id, n.label)) =
        stF.nodes.map (fun n => (n.id, n.label)) ∧
      stG.rels.map relProj = stF.rels.map relProj ∧
      stG.nodes.length = stF.nodes.length ∧
      stG.rels.length = stF.rels.length := by
  rw [migrate_all] at h1
  rcases hnp : nodePhase db schema.nodes (if clear then clearDb st0 else st0)
    with ⟨nlog, nres⟩
  rw [hnp] at h1
  dsimp only at h1
  rcases nres with e | ⟨st1, ncs⟩
  · injection h1 with hl h2
    cases h2
  · dsimp only at h1
    rcases hrp : relPhase db schema schema.relationships st1 with ⟨rlog, rres⟩
    rw [hrp] at h1
    dsimp only at h1
    rcases rres with e | ⟨st2, rcs⟩
    · injection h1 with hl h2
      cases h2
    · injection h1 with hl h2
      have h3 := Except.ok.inj h2
      injection h3 with h4 h5
      subst h4
      obtain ⟨hrels1, hpres1, hfacts1, hvalid1⟩ := nodePhase_facts db hdb schema
        huniq schema.nodes (fun N hN => hN) _ nlog st1 ncs hnp
      obtain ⟨hn2, hmono2, hdone2, hok2⟩ := relPhase_post db schema
        schema.relationships st1 rlog st2 rcs hrp
      have hshape0 : NodeShapeEq schema st2.nodes st2.nodes :=
        List.forall₂_same.mpr (fun x _ => ⟨rfl, rfl, fun _ _ _ _ _ => rfl⟩)
      have hfactF : ∀ N ∈ schema.nodes, ∀ r ∈ nodeRowsOf db N, ∀ kvs,
          rowKvs N.merge_keys r = Except.ok kvs → MatchFact N.label kvs st2 := by
        intro N hN r hr kvs hkvs
        obtain ⟨n, hn, hm⟩ := hfacts1 N hN r hr kvs hkvs
        refine ⟨n, ?_, hm⟩
        rw [hn2]
        exact hn
      obtain ⟨logN, cur1, cs1, hnp2, hshape1, hrels2, hid2⟩ := nodePhase_run2
        db hdb schema huniq st2 schema.nodes (fun N hN => hN) st2 hshape0
        hvalid1 hfactF
      have hproj1 : cur1.rels.map relProj = st2.rels.map relProj := by
        rw [hrels2]
      obtain ⟨logR, cur2, cs2, hrp2, hn3, hi3, hp3⟩ := relPhase_run2 db schema
        st2 schema.relationships cur1 hshape1 hproj1 hdone2 hok2
      have hnodemap : cur2.nodes.map (fun n => (n.id, n.label)) =
          st2.nodes.map (fun n => (n.id, n.label)) := by
        rw [hn3]
        exact (forall₂_map_eq _ _ _ hshape1
          (fun a b hr => by rw [hr.1, hr.2.1])).symm
      have hnlen : cur2.nodes.length = st2.nodes.length := by
        have hlen := congrArg List.length hnodemap
        simpa using hlen
      have hrlen : cur2.rels.length = st2.rels.length := by
        have hlen := congrArg List.length hp3
        simpa using hlen
      refine ⟨[MigStep.setupStep] ++ logN ++ logR, cur2, cs1, cs2, ?_,
        hnodemap, hp3, hnlen, hrlen⟩
      rw [migrate_all]
      simp only [Bool.false_eq_true, if_false]
      rw [hnp2]
      dsimp only
      rw [hrp2]
      dsimp only
      rw [List.nil_append]

theorem witDbC1_nodup : RowKeysNodup witDbC1 := by
  intro q r hr
  rw [witDbC1] at hr
  by_cases h1 : (q == "SELECT id FROM t") = true
  · rw [if_pos h1] at hr
    obtain rfl := List.mem_singleton.mp hr
    decide
  · rw [if_neg h1] at hr
    by_cases h2 : (q == "SELECT id AS from_id, id AS to_id FROM t") = true
    · rw [if_pos h2] at hr
      obtain rfl := List.mem_singleton.mp hr
      decide
    · rw [if_neg h2] at hr
      cases hr

/-- The idempotence theorem at a concrete dataset: the first run creates
one `P` node and one self `R` edge; the second run keeps both counts. -/
theorem C1_migrate_all_idempotent_witness :
    ∃ log2 stG nc2 rc2,
      migrate_all witDbC1 witSchemaC1 false witStFC1 =
        (log2, Except.ok (stG, nc2, rc2)) ∧
      stG.nodes.map (fun n => (n.id, n.label)) =
        witStFC1.nodes.map (fun n => (n.id, n.label)) ∧
      stG.rels.map relProj = witStFC1.rels.map relProj ∧
      stG.nodes.length = witStFC1.nodes.length ∧
      stG.rels.length = witStFC1.rels.length :=
  C1_migrate_all_idempotent witDbC1 witSchemaC1 false ⟨[], [], 0⟩
    witDbC1_nodup (by decide)
    [MigStep.setupStep, MigStep.nodeStep "P", MigStep.relStep "R"]
    witStFC1 [("P", 1)] [("R", 1)] rfl

end Noah
